import Mathlib

/-
  Verification of the odin-data control-plane client
  (src/tools/python/odin_data/odin_data_client.py).

  The client is shallowly embedded: Python dicts/lists/scalars become the
  `JValue` tree, the mutable `OdinDataClient` object becomes the explicit
  record `ClientState`, and the IPC layer (external to this file's source,
  specified only at its boundary) becomes a reply oracle `Env` together with
  a trace of `Event`s recording every send and every sleep, in order.
  Logging calls are omitted except where an observable property depends on
  them (the error log in `load_config`), in which case they append to the
  `log` field of the state.
-/

set_option maxHeartbeats 1000000

namespace OdinData

/-- JSON-like values: the shape of the Python dict/list/scalar data the
client manipulates. -/
inductive JValue where
  | str (s : String)
  | int (n : Int)
  | bool (b : Bool)
  | obj (fields : List (String × JValue))
  | arr (items : List JValue)

/-- Lookup of a key in an association list, first match wins
(Python dict keys are unique, which every operation below preserves). -/
def listGet : List (String × JValue) → String → Option JValue
  | [], _ => none
  | (k', v) :: rest, k => if k' = k then some v else listGet rest k

/-- Python `d[k] = v` on a dict represented as an association list:
replace the value in place if the key is present (keeping its position,
as Python dicts do), otherwise append the new binding at the end. -/
def listSet : List (String × JValue) → String → JValue → List (String × JValue)
  | [], k, v => [(k, v)]
  | (k', v') :: rest, k, v =>
    if k' = k then (k', v) :: rest else (k', v') :: listSet rest k v

/-- Is the value a mapping (Python dict)? -/
def isObjB : JValue → Bool
  | .obj _ => true
  | _ => false

/-- Items of a JSON array; the spec declares `processor_plugins` a sequence
of fragment mappings, so a non-array value is outside the modelled domain
(we read it as the empty sequence). -/
def jAsArr : JValue → List JValue
  | .arr items => items
  | _ => []

/-- Python `k in d` for a dict. The configuration values it is applied to
are dicts in every modelled run; on a non-dict we return `false`
(Python would raise or do a different membership test there). -/
def jContains (d : JValue) (k : String) : Bool :=
  match d with
  | .obj o => (listGet o k).isSome
  | _ => false

/-- Read `d[k]` as an option: `none` when the key is absent or `d` is not a
dict (Python would raise `KeyError`/`TypeError` there; no modelled run does). -/
def jGetOpt (d : JValue) (k : String) : Option JValue :=
  match d with
  | .obj o => listGet o k
  | _ => none

/-- Python `d[k] = v` lifted to `JValue`; a non-dict is left unchanged
(Python would raise `TypeError`, unreachable in the modelled runs). -/
def jSet (d : JValue) (k : String) (v : JValue) : JValue :=
  match d with
  | .obj o => .obj (listSet o k v)
  | _ => d

/-- In-place mutation of the sub-dict `d[k]` by `f`, as Python's aliasing
writes to `d[k][...]` do. Every call site first ensures `k` is present; if
it were absent (Python: `KeyError`) we apply `f` to an empty dict. -/
def jModify (d : JValue) (k : String) (f : JValue → JValue) : JValue :=
  match d with
  | .obj o => .obj (listSet o k (f ((listGet o k).getD (.obj []))))
  | _ => d

/-- Lookup along a path of keys; `none` as soon as a key is missing or an
intermediate value is not a dict. Pure observation function on trees. -/
def lookupPath : JValue → List String → Option JValue
  | v, [] => some v
  | v, k :: ks =>
    match jGetOpt v k with
    | some w => lookupPath w ks
    | none => none

/-- `MESSAGE_ID_MAX = 2**32` (class attribute of `OdinDataClient`). -/
def MESSAGE_ID_MAX : Nat := 2 ^ 32

/-- The two IPC control channels of the client: `fr_ctrl_channel` connects to
the frame receiver, `fp_ctrl_channel` to the frame processor. -/
inductive Chan where
  | fr_ctrl
  | fp_ctrl
deriving DecidableEq

/-- Observable actions of the client, in program order: a message send on a
channel (command name, message id, and the `params` attribute if one was
attached), and a sleep (in milliseconds; `time.sleep(0.2)` is 200 ms). -/
inductive Event where
  | send (ch : Chan) (cmd : String) (mid : Nat) (params : Option JValue)
  | sleep (ms : Nat)

/-- The mutable state of one `OdinDataClient` instance: the receiver and
processor configuration dicts, the plugin-chain list, the three session
scalars, the message id counter, a count of sends so far (used only to
index the reply oracle), and the error log. -/
structure ClientState where
  fr_config : JValue
  fp_config : JValue
  fp_plugins : List JValue
  frames : Int
  file_path : String
  file_name : String
  msg_id : Nat
  n_sent : Nat
  log : List String

/-- The state established by `__init__`: empty config dicts, no plugins,
frames = 1, path "/tmp", name "test.hdf5", message id counter 0. -/
def initState : ClientState :=
  { fr_config := .obj []
  , fp_config := .obj []
  , fp_plugins := []
  , frames := 1
  , file_path := "/tmp"
  , file_name := "test.hdf5"
  , msg_id := 0
  , n_sent := 0
  , log := [] }

/-- `_ensure_config_section(config, section)`: insert an empty dict under
the key when absent, leave the config untouched when present. (The debug
log line is omitted.) -/
def _ensure_config_section (config : JValue) (sect : String) : JValue :=
  if jContains config sect then config else jSet config sect (.obj [])

/-- `set_num_frames(frames)`: store in the session, ensure the `hdf`
section of the processor config, write `hdf.frames`. -/
def set_num_frames (frames : Int) (s : ClientState) : ClientState :=
  let fp := _ensure_config_section s.fp_config "hdf"
  let fp := jModify fp "hdf" (fun hdf => jSet hdf "frames" (.int frames))
  { s with frames := frames, fp_config := fp }

/-- `set_file_path(file_path)`: store in the session, ensure `hdf` and
`hdf.file`, write `hdf.file.path`. -/
def set_file_path (file_path : String) (s : ClientState) : ClientState :=
  let fp := _ensure_config_section s.fp_config "hdf"
  let fp := jModify fp "hdf" (fun hdf =>
    let hdf := _ensure_config_section hdf "file"
    jModify hdf "file" (fun file => jSet file "path" (.str file_path)))
  { s with file_path := file_path, fp_config := fp }

/-- `set_file_name(file_name)`: store in the session, ensure `hdf` and
`hdf.file`, write `hdf.file.name`. -/
def set_file_name (file_name : String) (s : ClientState) : ClientState :=
  let fp := _ensure_config_section s.fp_config "hdf"
  let fp := jModify fp "hdf" (fun hdf =>
    let hdf := _ensure_config_section hdf "file"
    jModify hdf "file" (fun file => jSet file "name" (.str file_name)))
  { s with file_name := file_name, fp_config := fp }

/-- Python exceptions that the modelled code can raise. -/
inductive PyErr where
  | keyError (k : String)
deriving DecidableEq

/-- The fixed bitdepth → dataset-type table `rdtype_map` of `set_bitdepth`;
`none` models the `KeyError` a lookup of any other key raises. -/
def rdtype_map (bitdepth : Int) : Option Int :=
  if bitdepth = 1 then some 0
  else if bitdepth = 6 then some 0
  else if bitdepth = 12 then some 1
  else if bitdepth = 24 then some 2
  else none

/-- `set_bitdepth(bitdepth)`: format the `-bit` string and write it into
`receiver.decoder_config.bitdepth` and `processor.excalibur.bitdepth`;
then look `bitdepth` up in `rdtype_map` — a `KeyError` here propagates,
leaving the two string writes in place — and on success write the code to
`processor.hdf.dataset.data.datatype`. The returned state reflects every
mutation made before a raise. -/
def set_bitdepth (bitdepth : Int) (s : ClientState) : ClientState × Option PyErr :=
  let bitdepth_str := toString bitdepth ++ "-bit"
  let fr := _ensure_config_section s.fr_config "decoder_config"
  let fr := jModify fr "decoder_config" (fun d => jSet d "bitdepth" (.str bitdepth_str))
  let fp := _ensure_config_section s.fp_config "excalibur"
  let fp := jModify fp "excalibur" (fun d => jSet d "bitdepth" (.str bitdepth_str))
  let s := { s with fr_config := fr, fp_config := fp }
  match rdtype_map bitdepth with
  | none => (s, some (.keyError (toString bitdepth)))
  | some rdtype =>
    let fp := _ensure_config_section s.fp_config "hdf"
    let fp := jModify fp "hdf" (fun hdf =>
      let hdf := _ensure_config_section hdf "dataset"
      jModify hdf "dataset" (fun ds =>
        let ds := _ensure_config_section ds "data"
        jModify ds "data" (fun data => jSet data "datatype" (.int rdtype))))
    ({ s with fp_config := fp }, none)

/-- `load_config(config_file)`: the external `json.load` outcome is the
input — `.error e` is an unparseable document (`JSONDecodeError`), `.ok v`
the parsed value. On error the failure is logged and nothing else changes;
on success each of the three optional top-level sections that is present
replaces the corresponding piece of state. (The entry debug log is
omitted.) -/
def load_config (doc : Except String JValue) (s : ClientState) : ClientState :=
  match doc with
  | .error e =>
    { s with log := s.log ++ ["Failed to parse configuration file: " ++ e] }
  | .ok config_params =>
    let s :=
      match jGetOpt config_params "receiver_default_config" with
      | some v => { s with fr_config := v }
      | none => s
    let s :=
      match jGetOpt config_params "processor_default_config" with
      | some v => { s with fp_config := v }
      | none => s
    match jGetOpt config_params "processor_plugins" with
    | some v => { s with fp_plugins := jAsArr v }
    | none => s

/-- Python truthiness, used by `_send_cmd`'s `if params:` test (a `None` or
empty-dict `params` is not attached to the message). -/
def truthyB : JValue → Bool
  | .str a => !(a == "")
  | .int n => !(n == 0)
  | .bool b => b
  | .obj o => !o.isEmpty
  | .arr a => !a.isEmpty

/-- The reply oracle: for the n-th send of the run (0-based), either the
`params` of the reply that arrives within the poll window, or `none` when
the poll times out. This models the external transport of
`IpcChannel.poll`/`recv` at its interface boundary. -/
def Env : Type := Nat → Option JValue

/-- `_next_msg_id()`: increment the counter modulo `MESSAGE_ID_MAX`, store
it back, and return the new value. -/
def _next_msg_id (s : ClientState) : ClientState × Nat :=
  let m := (s.msg_id + 1) % MESSAGE_ID_MAX
  ({ s with msg_id := m }, m)

/-- `_send_cmd(channel, cmd, params)`: build the message with a fresh id,
attach `params` only when truthy, send it (recorded as an `Event.send`),
then poll once for up to the timeout — the oracle decides whether a reply
arrived. Exactly one send, no retry. -/
def _send_cmd (env : Env) (ch : Chan) (cmd : String) (params : Option JValue)
    (s : ClientState) : ClientState × List Event × Option JValue :=
  let (s, mid) := _next_msg_id s
  let p :=
    match params with
    | some v => if truthyB v then some v else none
    | none => none
  let reply := env s.n_sent
  ({ s with n_sent := s.n_sent + 1 }, [Event.send ch cmd mid p], reply)

/-- `_send_config_cmd(channel, params)`: a `configure` command. -/
def _send_config_cmd (env : Env) (ch : Chan) (params : JValue)
    (s : ClientState) : ClientState × List Event × Option JValue :=
  _send_cmd env ch "configure" (some params) s

/-- `_send_status_cmd(channel)`: a `status` command with no params. -/
def _send_status_cmd (env : Env) (ch : Chan)
    (s : ClientState) : ClientState × List Event × Option JValue :=
  _send_cmd env ch "status" none s

/-- The settling loop of `do_config_cmd` (`for _ in range(10): ...`): each
iteration sends one `status` request to the processor; only when a reply
arrived does it print the `shared_memory` param (not an event) and sleep
0.2 s (= 200 ms). A timed-out poll is followed by no sleep. -/
def config_poll_loop (env : Env) : Nat → ClientState → ClientState × List Event
  | 0, s => (s, [])
  | n + 1, s =>
    let (s1, evs, reply) := _send_status_cmd env .fp_ctrl s
    let pause := if reply.isSome then [Event.sleep 200] else []
    let (s2, rest) := config_poll_loop env n s1
    (s2, evs ++ pause ++ rest)

/-- The plugin-chain loop of `do_config_cmd`: each fragment is sent, in
order, as its own `configure` command to the processor. -/
def plugin_config_sends (env : Env) : List JValue → ClientState → ClientState × List Event
  | [], s => (s, [])
  | p :: rest, s =>
    let (s1, evs, _reply) := _send_config_cmd env .fp_ctrl p s
    let (s2, more) := plugin_config_sends env rest s1
    (s2, evs ++ more)

/-- `do_config_cmd()`: (a) full receiver config to the receiver; (b) the
`fr_setup` fragment to the processor when present; (c) the 10-iteration
settling poll; (d) every plugin fragment in order; (e) the full processor
config. (The `if len(self.fp_plugins)` guard only gates a log line; the
loop itself sends nothing on an empty chain either way.) -/
def do_config_cmd (env : Env) (s : ClientState) : ClientState × List Event :=
  let (s, e1, _r1) := _send_config_cmd env .fr_ctrl s.fr_config s
  let (s, e2) :=
    match jGetOpt s.fp_config "fr_setup" with
    | some v =>
      let (s, e, _r) := _send_config_cmd env .fp_ctrl (.obj [("fr_setup", v)]) s
      (s, e)
    | none => (s, [])
  let (s, e3) := config_poll_loop env 10 s
  let (s, e4) := plugin_config_sends env s.fp_plugins s
  let (s, e5, _r5) := _send_config_cmd env .fp_ctrl s.fp_config s
  (s, e1 ++ e2 ++ e3 ++ e4 ++ e5)

/-- `set_file_writing(enable)`: re-apply the three session setters, write
`hdf.frames` and `hdf.write` directly, then send just the `hdf` subtree
(a fresh single-key dict) to the processor. -/
def set_file_writing (env : Env) (enable : Bool) (s : ClientState) :
    ClientState × List Event :=
  let s := set_file_name s.file_name s
  let s := set_file_path s.file_path s
  let s := set_num_frames s.frames s
  let fp := jModify s.fp_config "hdf" (fun hdf => jSet hdf "frames" (.int s.frames))
  let fp := jModify fp "hdf" (fun hdf => jSet hdf "write" (.bool enable))
  let s := { s with fp_config := fp }
  let (s, evs, _reply) :=
    _send_config_cmd env .fp_ctrl
      (.obj [("hdf", (jGetOpt s.fp_config "hdf").getD (.obj []))]) s
  (s, evs)

/-- `do_shutdown_cmd()`: a `shutdown` command to the receiver, then a
`configure` command with params `{shutdown: true}` to the processor; the
replies are only logged, so the second send is unconditional. -/
def do_shutdown_cmd (env : Env) (s : ClientState) : ClientState × List Event :=
  let (s1, e1, _reply1) := _send_cmd env .fr_ctrl "shutdown" none s
  let (s2, e2, _reply2) :=
    _send_config_cmd env .fp_ctrl (.obj [("shutdown", .bool true)]) s1
  (s2, e1 ++ e2)

/-- `do_status_cmd()`: a `status` request to each channel in turn
(receiver then processor), each reply only logged. -/
def do_status_cmd (env : Env) (s : ClientState) : ClientState × List Event :=
  let (s1, e1, _r1) := _send_status_cmd env .fr_ctrl s
  let (s2, e2, _r2) := _send_status_cmd env .fp_ctrl s1
  (s2, e1 ++ e2)

/-- `_do_cmd(cmd, cmd_name)`: one fixed command to each channel in turn
(receiver then processor), each reply only logged. -/
def _do_cmd (env : Env) (cmd : String) (s : ClientState) : ClientState × List Event :=
  let (s1, e1, _r1) := _send_cmd env .fr_ctrl cmd none s
  let (s2, e2, _r2) := _send_cmd env .fp_ctrl cmd none s1
  (s2, e1 ++ e2)

/-- `do_request_config_cmd()`. -/
def do_request_config_cmd (env : Env) (s : ClientState) : ClientState × List Event :=
  _do_cmd env "request_configuration" s

/-- `do_request_version_cmd()`. -/
def do_request_version_cmd (env : Env) (s : ClientState) : ClientState × List Event :=
  _do_cmd env "request_version" s

/-- `do_reset_stats_cmd()`. -/
def do_reset_stats_cmd (env : Env) (s : ClientState) : ClientState × List Event :=
  _do_cmd env "reset_statistics" s

/-- Prior session-setter calls, as quantified over by the file-writing
payload property: `set_num_frames` / `set_file_path` / `set_file_name`. -/
inductive PreOp where
  | numFrames (n : Int)
  | filePath (p : String)
  | fileName (f : String)

/-- Apply one session-setter call. -/
def applyPreOp : PreOp → ClientState → ClientState
  | .numFrames n, s => set_num_frames n s
  | .filePath p, s => set_file_path p s
  | .fileName f, s => set_file_name f s

/-- Apply a sequence of session-setter calls, left to right. -/
def applyPreOps : List PreOp → ClientState → ClientState
  | [], s => s
  | op :: ops, s => applyPreOps ops (applyPreOp op s)

/-- Any state-mutating client operation other than `load_config`: the four
value setters plus `set_file_writing` (whose oracle and flag are part of
the operation). `set_bitdepth`'s state is taken whether or not it raised. -/
inductive SetterOp where
  | numFrames (n : Int)
  | filePath (p : String)
  | fileName (f : String)
  | bitdepth (b : Int)
  | fileWriting (env : Env) (enable : Bool)

/-- Apply one mutating operation to the client state. -/
def applySetterOp : SetterOp → ClientState → ClientState
  | .numFrames n, s => set_num_frames n s
  | .filePath p, s => set_file_path p s
  | .fileName f, s => set_file_name f s
  | .bitdepth b, s => (set_bitdepth b s).1
  | .fileWriting env e, s => (set_file_writing env e s).1

/-- The projection invariant of the session state: whenever one of the
three `hdf` leaves derived from the session exists in the processor tree,
it equals the corresponding session field. -/
def ProjInv (s : ClientState) : Prop :=
  (lookupPath s.fp_config ["hdf", "frames"] = none ∨
    lookupPath s.fp_config ["hdf", "frames"] = some (.int s.frames)) ∧
  (lookupPath s.fp_config ["hdf", "file", "path"] = none ∨
    lookupPath s.fp_config ["hdf", "file", "path"] = some (.str s.file_path)) ∧
  (lookupPath s.fp_config ["hdf", "file", "name"] = none ∨
    lookupPath s.fp_config ["hdf", "file", "name"] = some (.str s.file_name))

/-- Shape discipline of the processor tree needed by the nested setters:
the tree is a dict, and the `hdf` and `hdf.file` nodes, when present, are
dicts. Every run of the Python code that reaches the nested writes has it. -/
def WFfp (s : ClientState) : Prop :=
  isObjB s.fp_config = true ∧
  (∀ v, lookupPath s.fp_config ["hdf"] = some v → isObjB v = true) ∧
  (∀ v, lookupPath s.fp_config ["hdf", "file"] = some v → isObjB v = true)

/-- Is the event a sleep? -/
def isSleepEv : Event → Bool
  | .sleep _ => true
  | _ => false

/-- Is the event a `status` send on the given channel? -/
def isStatusSendTo (ch : Chan) : Event → Bool
  | .send c cmd _ _ => c == ch && cmd == "status"
  | .sleep _ => false

/-- Is the first path a (not necessarily strict) leading segment of the
second? -/
def pathPre : List String → List String → Bool
  | [], _ => true
  | _ :: _, [] => false
  | a :: as, b :: bs => a == b && pathPre as bs

/-- Two paths are related when either is a leading segment of the other;
a write at path `P` can only disturb lookups at paths related to `P`. -/
def relPath (q P : List String) : Bool :=
  pathPre q P || pathPre P q

/-- The client state after `n` calls of `_next_msg_id` starting from the
freshly initialised client. -/
def stateAfterIds : Nat → ClientState
  | 0 => initState
  | n + 1 => (_next_msg_id (stateAfterIds n)).1

/-- The processor-tree paths each mutating operation writes. -/
def writtenPathsFp : SetterOp → List (List String)
  | .numFrames _ => [["hdf", "frames"]]
  | .filePath _ => [["hdf", "file", "path"]]
  | .fileName _ => [["hdf", "file", "name"]]
  | .bitdepth _ => [["excalibur", "bitdepth"], ["hdf", "dataset", "data", "datatype"]]
  | .fileWriting _ _ =>
    [["hdf", "frames"], ["hdf", "file", "path"], ["hdf", "file", "name"], ["hdf", "write"]]

/-- The receiver-tree paths each mutating operation writes (only
`set_bitdepth` touches the receiver tree). -/
def writtenPathsFr : SetterOp → List (List String)
  | .bitdepth _ => [["decoder_config", "bitdepth"]]
  | _ => []

/-- Shape discipline of the two trees needed by `set_bitdepth`'s string
writes: each tree is a dict, and the section it writes into, when already
present, is a dict. -/
def WFbd (s : ClientState) : Prop :=
  isObjB s.fr_config = true ∧
  (∀ v, lookupPath s.fr_config ["decoder_config"] = some v → isObjB v = true) ∧
  isObjB s.fp_config = true ∧
  (∀ v, lookupPath s.fp_config ["excalibur"] = some v → isObjB v = true)

/-- Shape discipline for the whole of `set_bitdepth`: the `WFbd` sections
plus the `hdf` / `hdf.dataset` / `hdf.dataset.data` chain of the processor
tree (each node, when present, a dict). -/
def WFbdFull (s : ClientState) : Prop :=
  WFbd s ∧
  (∀ v, lookupPath s.fp_config ["hdf"] = some v → isObjB v = true) ∧
  (∀ v, lookupPath s.fp_config ["hdf", "dataset"] = some v → isObjB v = true) ∧
  (∀ v, lookupPath s.fp_config ["hdf", "dataset", "data"] = some v
    → isObjB v = true)

/-! Basic facts about the association-list dict operations. -/

theorem listGet_listSet_self (o : List (String × JValue)) (k : String) (v : JValue) :
    listGet (listSet o k v) k = some v := by
  induction o with
  | nil => simp [listSet, listGet]
  | cons hd rest ih =>
    obtain ⟨k', v'⟩ := hd
    by_cases hk : k' = k
    · subst hk; simp [listSet, listGet]
    · simp [listSet, listGet, hk, ih]

theorem listGet_listSet_ne (o : List (String × JValue)) (k k' : String) (v : JValue)
    (h : k' ≠ k) : listGet (listSet o k v) k' = listGet o k' := by
  have h2 : ¬(k = k') := fun hh => h hh.symm
  induction o with
  | nil => simp [listSet, listGet, h2]
  | cons hd rest ih =>
    obtain ⟨k'', v''⟩ := hd
    by_cases hk : k'' = k
    · subst hk
      simp [listSet, listGet, h2]
    · simp [listSet, listGet, hk, ih]

/-- A value recognised as a dict is a dict. -/
theorem isObjB_eq_true (v : JValue) (h : isObjB v = true) :
    ∃ o, v = .obj o := by
  cases v with
  | obj o => exact ⟨o, rfl⟩
  | str a => simp [isObjB] at h
  | int a => simp [isObjB] at h
  | bool a => simp [isObjB] at h
  | arr a => simp [isObjB] at h

theorem jGetOpt_jSet_ne (d : JValue) (k k' : String) (v : JValue) (h : k' ≠ k) :
    jGetOpt (jSet d k v) k' = jGetOpt d k' := by
  cases d <;> simp [jSet, jGetOpt, listGet_listSet_ne _ _ _ _ h]

theorem jGetOpt_jSet_self (o : List (String × JValue)) (k : String) (v : JValue) :
    jGetOpt (jSet (.obj o) k v) k = some v := by
  simp [jSet, jGetOpt, listGet_listSet_self]

theorem jGetOpt_jModify_ne (d : JValue) (k k' : String) (f : JValue → JValue)
    (h : k' ≠ k) : jGetOpt (jModify d k f) k' = jGetOpt d k' := by
  cases d <;> simp [jModify, jGetOpt, listGet_listSet_ne _ _ _ _ h]

theorem jGetOpt_jModify_self (o : List (String × JValue)) (k : String) (f : JValue → JValue) :
    jGetOpt (jModify (.obj o) k f) k = some (f ((listGet o k).getD (.obj []))) := by
  simp [jModify, jGetOpt, listGet_listSet_self]

theorem jGetOpt_ensure_ne (d : JValue) (k k' : String) (h : k' ≠ k) :
    jGetOpt (_ensure_config_section d k) k' = jGetOpt d k' := by
  by_cases hc : jContains d k = true
  · simp [_ensure_config_section, hc]
  · simp only [_ensure_config_section, if_neg hc]
    exact jGetOpt_jSet_ne d k k' _ h

theorem jGetOpt_ensure_self (o : List (String × JValue)) (k : String) :
    jGetOpt (_ensure_config_section (.obj o) k) k =
      some ((listGet o k).getD (.obj [])) := by
  by_cases hc : (listGet o k).isSome
  · obtain ⟨v, hv⟩ := Option.isSome_iff_exists.mp hc
    simp [_ensure_config_section, jContains, hc, jGetOpt, hv]
  · have hnone : listGet o k = none := Option.not_isSome_iff_eq_none.mp (by simpa using hc)
    simp [_ensure_config_section, jContains, hnone, jGetOpt, jSet, listGet_listSet_self]

theorem isObjB_jSet (d : JValue) (k : String) (v : JValue) :
    isObjB (jSet d k v) = isObjB d := by
  cases d <;> simp [jSet, isObjB]

theorem isObjB_jModify (d : JValue) (k : String) (f : JValue → JValue) :
    isObjB (jModify d k f) = isObjB d := by
  cases d <;> simp [jModify, isObjB]

theorem isObjB_ensure (d : JValue) (k : String) :
    isObjB (_ensure_config_section d k) = isObjB d := by
  by_cases hc : jContains d k = true
  · simp [_ensure_config_section, hc]
  · simp [_ensure_config_section, hc, isObjB_jSet]

/-- Unfolding a one-step path lookup. -/
theorem lookupPath_cons (v : JValue) (k : String) (t : List String) :
    lookupPath v (k :: t) =
      match jGetOpt v k with
      | some w => lookupPath w t
      | none => none := rfl

/-! Localization: a write at a path can only disturb related lookups. -/

theorem lookupPath_ensure_off (d : JValue) (k : String) (q : List String)
    (h0 : q ≠ []) (h1 : q ≠ [k]) :
    lookupPath (_ensure_config_section d k) q = lookupPath d q := by
  match q with
  | [] => exact absurd rfl h0
  | k' :: t =>
    by_cases hk : k' = k
    · subst hk
      have ht : t ≠ [] := fun he => h1 (by rw [he])
      cases d with
      | obj o =>
        rw [lookupPath_cons, lookupPath_cons, jGetOpt_ensure_self]
        cases hg : listGet o k' with
        | some w => simp [jGetOpt, hg]
        | none =>
          simp only [jGetOpt, hg, Option.getD_none]
          match t, ht with
          | u :: t', _ => simp [lookupPath_cons, jGetOpt, listGet]
      | str a => simp [_ensure_config_section, jContains, jSet]
      | int a => simp [_ensure_config_section, jContains, jSet]
      | bool a => simp [_ensure_config_section, jContains, jSet]
      | arr a => simp [_ensure_config_section, jContains, jSet]
    · rw [lookupPath_cons, lookupPath_cons, jGetOpt_ensure_ne d k k' hk]

theorem lookupPath_jSet_off (d : JValue) (k : String) (v : JValue) (q : List String)
    (h0 : q ≠ []) (h1 : ∀ t, q ≠ k :: t) :
    lookupPath (jSet d k v) q = lookupPath d q := by
  match q with
  | [] => exact absurd rfl h0
  | k' :: t =>
    have hk : k' ≠ k := fun he => h1 t (by rw [he])
    rw [lookupPath_cons, lookupPath_cons, jGetOpt_jSet_ne d k k' v hk]

theorem lookupPath_jModify_off (d : JValue) (k : String) (f : JValue → JValue)
    (q : List String) (h0 : q ≠ [])
    (h : ∀ t, q = k :: t → t ≠ [] ∧ ∀ d', lookupPath (f d') t = lookupPath d' t) :
    lookupPath (jModify d k f) q = lookupPath d q := by
  match q with
  | [] => exact absurd rfl h0
  | k' :: t =>
    by_cases hk : k' = k
    · subst hk
      obtain ⟨ht, hf⟩ := h t rfl
      cases d with
      | obj o =>
        rw [lookupPath_cons, lookupPath_cons, jGetOpt_jModify_self]
        cases hg : listGet o k' with
        | some w => simp [jGetOpt, hg, hf w]
        | none =>
          simp only [jGetOpt, hg, Option.getD_none]
          rw [hf (.obj [])]
          match t, ht with
          | u :: t', _ => simp [lookupPath_cons, jGetOpt, listGet]
      | str a => simp [jModify]
      | int a => simp [jModify]
      | bool a => simp [jModify]
      | arr a => simp [jModify]
    · rw [lookupPath_cons, lookupPath_cons, jGetOpt_jModify_ne d k k' f hk]

/-! Turning `relPath _ _ = false` into the structural side conditions the
localization lemmas need. -/

theorem relPath_nil (P : List String) : relPath [] P = true := by
  simp [relPath, pathPre]

theorem relPath_ne_nil (q P : List String) (h : relPath q P = false) : q ≠ [] := by
  intro he
  rw [he, relPath_nil] at h
  exact Bool.true_eq_false.mp h

theorem relPath_cons_false (q : List String) (k : String) (P : List String)
    (h : relPath q (k :: P) = false) :
    ∀ t, q = k :: t → relPath t P = false := by
  intro t hq
  subst hq
  simp only [relPath, pathPre, beq_self_eq_true, Bool.true_and, Bool.or_eq_false_iff] at h ⊢
  exact h

theorem relPath_head_cases (q : List String) (k : String) (P : List String)
    (h : relPath q (k :: P) = false) :
    ∃ k' t, q = k' :: t ∧ (k' = k → relPath t P = false) := by
  match q with
  | [] => exact absurd rfl (relPath_ne_nil _ _ h)
  | k' :: t =>
    refine ⟨k', t, rfl, fun he => ?_⟩
    subst he
    exact relPath_cons_false _ _ _ h t rfl

theorem relPath_with_nil (t : List String) : relPath t [] = true := by
  cases t <;> simp [relPath, pathPre]

theorem jSet_leaf_off (d : JValue) (k : String) (v : JValue) (q : List String)
    (h : relPath q [k] = false) :
    lookupPath (jSet d k v) q = lookupPath d q := by
  obtain ⟨k', t, hq, himp⟩ := relPath_head_cases q k [] h
  subst hq
  have hk : k' ≠ k := by
    intro he
    have := himp he
    rw [relPath_with_nil] at this
    exact Bool.true_eq_false.mp this
  refine lookupPath_jSet_off d k v _ (by simp) ?_
  intro t' ht'
  injection ht' with h1 h2
  exact hk h1

/-- Off-path localization for the composite `ensure section, then mutate
inside it` shape every nested setter write has: if the inner transformer
only disturbs paths related to `P`, the composite only disturbs paths
related to `k1 :: P`. -/
theorem ensure_modify_off_step (d : JValue) (k1 : String) (T : JValue → JValue)
    (P : List String)
    (hT : ∀ (d' : JValue) (t : List String), relPath t P = false →
      lookupPath (T d') t = lookupPath d' t)
    (q : List String) (h : relPath q (k1 :: P) = false) :
    lookupPath (jModify (_ensure_config_section d k1) k1 T) q = lookupPath d q := by
  obtain ⟨k', t, hq, himp⟩ := relPath_head_cases q k1 P h
  subst hq
  by_cases hk : k' = k1
  · cases hk
    have ht := himp rfl
    have htne : t ≠ [] := relPath_ne_nil _ _ ht
    have step1 : lookupPath (jModify (_ensure_config_section d k1) k1 T) (k1 :: t)
        = lookupPath (_ensure_config_section d k1) (k1 :: t) := by
      refine lookupPath_jModify_off _ _ _ _ (by simp) ?_
      intro t' ht'
      injection ht' with h1 h2
      exact h2 ▸ ⟨htne, fun d' => hT d' t ht⟩
    have step2 : lookupPath (_ensure_config_section d k1) (k1 :: t)
        = lookupPath d (k1 :: t) := by
      refine lookupPath_ensure_off _ _ _ (by simp) ?_
      intro he
      injection he with h1 h2
      exact htne h2
    rw [step1, step2]
  · rw [lookupPath_cons, lookupPath_cons, jGetOpt_jModify_ne _ _ _ _ hk,
      jGetOpt_ensure_ne _ _ _ hk]

/-- Like `ensure_modify_off_step` for a bare `jModify` with no preceding
section creation (the direct `hdf` writes of `set_file_writing`). -/
theorem modify_off_step (d : JValue) (k1 : String) (T : JValue → JValue)
    (P : List String)
    (hT : ∀ (d' : JValue) (t : List String), relPath t P = false →
      lookupPath (T d') t = lookupPath d' t)
    (q : List String) (h : relPath q (k1 :: P) = false) :
    lookupPath (jModify d k1 T) q = lookupPath d q := by
  obtain ⟨k', t, hq, himp⟩ := relPath_head_cases q k1 P h
  subst hq
  by_cases hk : k' = k1
  · cases hk
    have ht := himp rfl
    have htne : t ≠ [] := relPath_ne_nil _ _ ht
    refine lookupPath_jModify_off _ _ _ _ (by simp) ?_
    intro t' ht'
    injection ht' with h1 h2
    exact h2 ▸ ⟨htne, fun d' => hT d' t ht⟩
  · rw [lookupPath_cons, lookupPath_cons, jGetOpt_jModify_ne _ _ _ _ hk]

/-! Per-setter localization: each setter only disturbs processor-tree
lookups along the paths it writes, and never touches the receiver tree
(except `set_bitdepth`, which also writes one receiver path). -/

theorem set_num_frames_fp_off (n : Int) (s : ClientState) (q : List String)
    (h : relPath q ["hdf", "frames"] = false) :
    lookupPath (set_num_frames n s).fp_config q = lookupPath s.fp_config q := by
  show lookupPath (jModify (_ensure_config_section s.fp_config "hdf") "hdf"
      (fun hdf => jSet hdf "frames" (.int n))) q = lookupPath s.fp_config q
  exact ensure_modify_off_step _ _ _ ["frames"]
    (fun d' t ht => jSet_leaf_off d' _ _ t ht) q h

theorem set_file_path_fp_off (p : String) (s : ClientState) (q : List String)
    (h : relPath q ["hdf", "file", "path"] = false) :
    lookupPath (set_file_path p s).fp_config q = lookupPath s.fp_config q := by
  show lookupPath (jModify (_ensure_config_section s.fp_config "hdf") "hdf"
      (fun hdf => jModify (_ensure_config_section hdf "file") "file"
        (fun file => jSet file "path" (.str p)))) q = lookupPath s.fp_config q
  exact ensure_modify_off_step _ _ _ ["file", "path"]
    (fun d' t ht => ensure_modify_off_step _ _ _ ["path"]
      (fun d'' u hu => jSet_leaf_off d'' _ _ u hu) t ht) q h

theorem set_file_name_fp_off (f : String) (s : ClientState) (q : List String)
    (h : relPath q ["hdf", "file", "name"] = false) :
    lookupPath (set_file_name f s).fp_config q = lookupPath s.fp_config q := by
  show lookupPath (jModify (_ensure_config_section s.fp_config "hdf") "hdf"
      (fun hdf => jModify (_ensure_config_section hdf "file") "file"
        (fun file => jSet file "name" (.str f)))) q = lookupPath s.fp_config q
  exact ensure_modify_off_step _ _ _ ["file", "name"]
    (fun d' t ht => ensure_modify_off_step _ _ _ ["name"]
      (fun d'' u hu => jSet_leaf_off d'' _ _ u hu) t ht) q h

theorem set_bitdepth_fr_off (b : Int) (s : ClientState) (q : List String)
    (h : relPath q ["decoder_config", "bitdepth"] = false) :
    lookupPath (set_bitdepth b s).1.fr_config q = lookupPath s.fr_config q := by
  have key : ∀ u : JValue,
      lookupPath (jModify (_ensure_config_section s.fr_config "decoder_config")
        "decoder_config" (fun d => jSet d "bitdepth" u)) q = lookupPath s.fr_config q :=
    fun u => ensure_modify_off_step _ _ _ ["bitdepth"]
      (fun d' t ht => jSet_leaf_off d' _ _ t ht) q h
  cases hr : rdtype_map b <;> simp [set_bitdepth, hr, key]

theorem set_bitdepth_fp_off (b : Int) (s : ClientState) (q : List String)
    (h1 : relPath q ["excalibur", "bitdepth"] = false)
    (h2 : relPath q ["hdf", "dataset", "data", "datatype"] = false) :
    lookupPath (set_bitdepth b s).1.fp_config q = lookupPath s.fp_config q := by
  have key1 : ∀ u : JValue,
      lookupPath (jModify (_ensure_config_section s.fp_config "excalibur")
        "excalibur" (fun d => jSet d "bitdepth" u)) q = lookupPath s.fp_config q :=
    fun u => ensure_modify_off_step _ _ _ ["bitdepth"]
      (fun d' t ht => jSet_leaf_off d' _ _ t ht) q h1
  have key2 : ∀ (d : JValue) (r : Int),
      lookupPath (jModify (_ensure_config_section d "hdf") "hdf"
        (fun hdf => jModify (_ensure_config_section hdf "dataset") "dataset"
          (fun ds => jModify (_ensure_config_section ds "data") "data"
            (fun data => jSet data "datatype" (.int r))))) q = lookupPath d q :=
    fun d r => ensure_modify_off_step _ _ _ ["dataset", "data", "datatype"]
      (fun d' t ht => ensure_modify_off_step _ _ _ ["data", "datatype"]
        (fun d'' u hu => ensure_modify_off_step _ _ _ ["datatype"]
          (fun d3 w hw => jSet_leaf_off d3 _ _ w hw) u hu) t ht) q h2
  cases hr : rdtype_map b with
  | none => simp [set_bitdepth, hr, key1]
  | some r => simp [set_bitdepth, hr, key1, key2]

/-! Record bookkeeping: which state fields each operation leaves alone. -/

@[simp] theorem set_num_frames_frames (n : Int) (s : ClientState) :
    (set_num_frames n s).frames = n := rfl

@[simp] theorem set_num_frames_file_path (n : Int) (s : ClientState) :
    (set_num_frames n s).file_path = s.file_path := rfl

@[simp] theorem set_num_frames_file_name (n : Int) (s : ClientState) :
    (set_num_frames n s).file_name = s.file_name := rfl

@[simp] theorem set_num_frames_fr_config (n : Int) (s : ClientState) :
    (set_num_frames n s).fr_config = s.fr_config := rfl

@[simp] theorem set_num_frames_msg_id (n : Int) (s : ClientState) :
    (set_num_frames n s).msg_id = s.msg_id := rfl

@[simp] theorem set_num_frames_n_sent (n : Int) (s : ClientState) :
    (set_num_frames n s).n_sent = s.n_sent := rfl

@[simp] theorem set_file_path_frames (p : String) (s : ClientState) :
    (set_file_path p s).frames = s.frames := rfl

@[simp] theorem set_file_path_file_path (p : String) (s : ClientState) :
    (set_file_path p s).file_path = p := rfl

@[simp] theorem set_file_path_file_name (p : String) (s : ClientState) :
    (set_file_path p s).file_name = s.file_name := rfl

@[simp] theorem set_file_path_fr_config (p : String) (s : ClientState) :
    (set_file_path p s).fr_config = s.fr_config := rfl

@[simp] theorem set_file_path_msg_id (p : String) (s : ClientState) :
    (set_file_path p s).msg_id = s.msg_id := rfl

@[simp] theorem set_file_path_n_sent (p : String) (s : ClientState) :
    (set_file_path p s).n_sent = s.n_sent := rfl

@[simp] theorem set_file_name_frames (f : String) (s : ClientState) :
    (set_file_name f s).frames = s.frames := rfl

@[simp] theorem set_file_name_file_path (f : String) (s : ClientState) :
    (set_file_name f s).file_path = s.file_path := rfl

@[simp] theorem set_file_name_file_name (f : String) (s : ClientState) :
    (set_file_name f s).file_name = f := rfl

@[simp] theorem set_file_name_fr_config (f : String) (s : ClientState) :
    (set_file_name f s).fr_config = s.fr_config := rfl

@[simp] theorem set_file_name_msg_id (f : String) (s : ClientState) :
    (set_file_name f s).msg_id = s.msg_id := rfl

@[simp] theorem set_file_name_n_sent (f : String) (s : ClientState) :
    (set_file_name f s).n_sent = s.n_sent := rfl

@[simp] theorem set_bitdepth_frames (b : Int) (s : ClientState) :
    (set_bitdepth b s).1.frames = s.frames := by
  cases hr : rdtype_map b <;> simp [set_bitdepth, hr]

@[simp] theorem set_bitdepth_file_path (b : Int) (s : ClientState) :
    (set_bitdepth b s).1.file_path = s.file_path := by
  cases hr : rdtype_map b <;> simp [set_bitdepth, hr]

@[simp] theorem set_bitdepth_file_name (b : Int) (s : ClientState) :
    (set_bitdepth b s).1.file_name = s.file_name := by
  cases hr : rdtype_map b <;> simp [set_bitdepth, hr]

@[simp] theorem send_cmd_fp_config (env : Env) (ch : Chan) (cmd : String)
    (params : Option JValue) (s : ClientState) :
    (_send_cmd env ch cmd params s).1.fp_config = s.fp_config := rfl

@[simp] theorem send_cmd_fr_config (env : Env) (ch : Chan) (cmd : String)
    (params : Option JValue) (s : ClientState) :
    (_send_cmd env ch cmd params s).1.fr_config = s.fr_config := rfl

@[simp] theorem send_cmd_frames (env : Env) (ch : Chan) (cmd : String)
    (params : Option JValue) (s : ClientState) :
    (_send_cmd env ch cmd params s).1.frames = s.frames := rfl

@[simp] theorem send_cmd_file_path (env : Env) (ch : Chan) (cmd : String)
    (params : Option JValue) (s : ClientState) :
    (_send_cmd env ch cmd params s).1.file_path = s.file_path := rfl

@[simp] theorem send_cmd_file_name (env : Env) (ch : Chan) (cmd : String)
    (params : Option JValue) (s : ClientState) :
    (_send_cmd env ch cmd params s).1.file_name = s.file_name := rfl

@[simp] theorem send_cmd_fp_plugins (env : Env) (ch : Chan) (cmd : String)
    (params : Option JValue) (s : ClientState) :
    (_send_cmd env ch cmd params s).1.fp_plugins = s.fp_plugins := rfl

@[simp] theorem send_cmd_msg_id (env : Env) (ch : Chan) (cmd : String)
    (params : Option JValue) (s : ClientState) :
    (_send_cmd env ch cmd params s).1.msg_id = (s.msg_id + 1) % MESSAGE_ID_MAX := rfl

@[simp] theorem send_cmd_n_sent (env : Env) (ch : Chan) (cmd : String)
    (params : Option JValue) (s : ClientState) :
    (_send_cmd env ch cmd params s).1.n_sent = s.n_sent + 1 := rfl

/-! The single positive lemma behind every nested write: ensuring a
section and mutating inside it yields a tree whose ensured key holds the
transformed old section (empty when absent), whose other keys are
untouched, and which is still a dict. -/

theorem ensure_modify_get (o : List (String × JValue)) (k1 : String)
    (T : JValue → JValue) :
    jGetOpt (jModify (_ensure_config_section (.obj o) k1) k1 T) k1
      = some (T ((listGet o k1).getD (.obj []))) ∧
    (∀ k, k ≠ k1 → jGetOpt (jModify (_ensure_config_section (.obj o) k1) k1 T) k
      = listGet o k) ∧
    isObjB (jModify (_ensure_config_section (.obj o) k1) k1 T) = true := by
  have hobj : isObjB (_ensure_config_section (.obj o) k1) = true := by
    rw [isObjB_ensure]; rfl
  obtain ⟨o1, ho1⟩ := isObjB_eq_true _ hobj
  have hget : listGet o1 k1 = some ((listGet o k1).getD (.obj [])) := by
    have := jGetOpt_ensure_self o k1
    rw [ho1] at this
    exact this
  refine ⟨?_, ?_, ?_⟩
  · rw [ho1, jGetOpt_jModify_self, hget]
    rfl
  · intro k hk
    rw [jGetOpt_jModify_ne _ _ _ _ hk, jGetOpt_ensure_ne _ _ _ hk]
    rfl
  · rw [isObjB_jModify, isObjB_ensure]
    rfl

/-- A one-key lookup on a dict is just the association-list lookup. -/
theorem lookupPath_single (o : List (String × JValue)) (k : String) :
    lookupPath (.obj o) [k] = listGet o k := by
  cases hg : listGet o k <;> simp [lookupPath, jGetOpt, hg]

/-- Splitting a path lookup at its first key. -/
theorem lookupPath_cons_obj (o : List (String × JValue)) (k : String)
    (t : List String) (w : JValue) (h : listGet o k = some w) :
    lookupPath (.obj o) (k :: t) = lookupPath w t := by
  simp [lookupPath_cons, jGetOpt, h]

theorem lookupPath_cons_some (v w : JValue) (k : String) (t : List String)
    (h : jGetOpt v k = some w) : lookupPath v (k :: t) = lookupPath w t := by
  rw [lookupPath_cons, h]

theorem getD_obj_of_pointwise (x : Option JValue)
    (h : ∀ v, x = some v → isObjB v = true) :
    isObjB (x.getD (.obj [])) = true := by
  cases x with
  | none => rfl
  | some v => exact h v rfl


/-! The message-id counter. -/

theorem stateAfterIds_msg_id (n : Nat) :
    (stateAfterIds n).msg_id = n % MESSAGE_ID_MAX := by
  induction n with
  | zero => simp [stateAfterIds, initState]
  | succ n ih =>
    show ((stateAfterIds n).msg_id + 1) % MESSAGE_ID_MAX = (n + 1) % MESSAGE_ID_MAX
    rw [ih, Nat.mod_add_mod]

theorem nth_msg_id (n : Nat) :
    (_next_msg_id (stateAfterIds n)).2 = (n + 1) % MESSAGE_ID_MAX := by
  show ((stateAfterIds n).msg_id + 1) % MESSAGE_ID_MAX = (n + 1) % MESSAGE_ID_MAX
  rw [stateAfterIds_msg_id, Nat.mod_add_mod]

theorem mod_window_ne (i j : Nat) (hij : i < j) (hwin : j - i < MESSAGE_ID_MAX) :
    (i + 1) % MESSAGE_ID_MAX ≠ (j + 1) % MESSAGE_ID_MAX := by
  intro h
  have hmod : Nat.ModEq MESSAGE_ID_MAX (i + 1) (j + 1) := h
  have hdvd : MESSAGE_ID_MAX ∣ (j + 1) - (i + 1) :=
    (Nat.modEq_iff_dvd' (by omega)).mp hmod
  have hpos : 0 < (j + 1) - (i + 1) := by omega
  have hle := Nat.le_of_dvd hpos hdvd
  omega

/-- C6: the message id counter starts at 0; every `_next_msg_id` call
returns `(counter + 1) mod 2^32` and stores it (so the first call returns
1 and the n-th call returns `n mod 2^32`), and no id repeats within any
window shorter than a full wrap. -/
theorem C6_msg_id_generator :
    initState.msg_id = 0 ∧
    (_next_msg_id initState).2 = 1 ∧
    (∀ s : ClientState, _next_msg_id s =
      ({ s with msg_id := (s.msg_id + 1) % MESSAGE_ID_MAX },
        (s.msg_id + 1) % MESSAGE_ID_MAX)) ∧
    (∀ n : Nat, (_next_msg_id (stateAfterIds n)).2 = (n + 1) % MESSAGE_ID_MAX) ∧
    (∀ i j : Nat, i < j → j - i < MESSAGE_ID_MAX →
      (_next_msg_id (stateAfterIds i)).2 ≠ (_next_msg_id (stateAfterIds j)).2) := by
  refine ⟨rfl, ?_, fun s => rfl, nth_msg_id, ?_⟩
  · show (initState.msg_id + 1) % MESSAGE_ID_MAX = 1
    norm_num [initState, MESSAGE_ID_MAX]
  · intro i j hij hwin
    rw [nth_msg_id, nth_msg_id]
    exact mod_window_ne i j hij hwin

theorem C6_msg_id_generator_witness :
    (3 < 7 ∧ 7 - 3 < MESSAGE_ID_MAX) ∧
    (_next_msg_id (stateAfterIds 3)).2 ≠ (_next_msg_id (stateAfterIds 7)).2 :=
  ⟨⟨by norm_num, by norm_num [MESSAGE_ID_MAX]⟩,
    C6_msg_id_generator.2.2.2.2 3 7 (by norm_num) (by norm_num [MESSAGE_ID_MAX])⟩

/-- C9: an unparseable configuration document given to `load_config`
leaves the receiver tree, the processor tree and the plugin chain
unchanged, appends the parse failure to the log, and returns normally
(non-fatal). -/
theorem C9_load_config_malformed (e : String) (s : ClientState) :
    (load_config (.error e) s).fr_config = s.fr_config ∧
    (load_config (.error e) s).fp_config = s.fp_config ∧
    (load_config (.error e) s).fp_plugins = s.fp_plugins ∧
    (load_config (.error e) s).log
      = s.log ++ ["Failed to parse configuration file: " ++ e] :=
  ⟨rfl, rfl, rfl, rfl⟩

/-- C10: `do_shutdown_cmd` always produces exactly two sends, in order: a
`shutdown` command to the receiver, then a `configure` command with params
`{shutdown: true}` to the processor — for every reply oracle, so the
second send happens whether or not the first got a reply, and neither is
retried. -/
theorem C10_shutdown_sequence (env : Env) (s : ClientState) :
    (do_shutdown_cmd env s).2 =
      [Event.send .fr_ctrl "shutdown" ((s.msg_id + 1) % MESSAGE_ID_MAX) none,
       Event.send .fp_ctrl "configure"
         (((s.msg_id + 1) % MESSAGE_ID_MAX + 1) % MESSAGE_ID_MAX)
         (some (.obj [("shutdown", .bool true)]))] := rfl

/-! The bitdepth table and its failure behaviour. -/

theorem rdtype_map_none (b : Int) (h : ¬(b = 1 ∨ b = 6 ∨ b = 12 ∨ b = 24)) :
    rdtype_map b = none := by
  push_neg at h
  obtain ⟨h1, h6, h12, h24⟩ := h
  simp [rdtype_map, h1, h6, h12, h24]

/-- C4: any bitdepth outside {1, 6, 12, 24} makes `set_bitdepth` fail with
the `KeyError` from its `rdtype_map` lookup; the error is returned to the
caller, not recovered internally. -/
theorem C4_bad_bitdepth_raises (b : Int) (s : ClientState)
    (h : ¬(b = 1 ∨ b = 6 ∨ b = 12 ∨ b = 24)) :
    (set_bitdepth b s).2 = some (.keyError (toString b)) := by
  simp [set_bitdepth, rdtype_map_none b h]

theorem C4_bad_bitdepth_raises_witness :
    ¬((7 : Int) = 1 ∨ (7 : Int) = 6 ∨ (7 : Int) = 12 ∨ (7 : Int) = 24) ∧
    (set_bitdepth 7 initState).2 = some (.keyError (toString (7 : Int))) :=
  ⟨by decide, C4_bad_bitdepth_raises 7 initState (by decide)⟩

/-! The settling poll of `do_config_cmd`. -/

/-- C1 counterexample: run `do_config_cmd` from the initial state with an
oracle on which every poll times out. The loop still issues its 10 status
requests to the processor, but not a single 200 ms pause happens —
refuting the claim that every one of the 10 polls is followed by a 200 ms
pause independent of whether it received a reply or timed out. -/
theorem C1_poll_pause_counterexample :
    ((do_config_cmd (fun _ => none) initState).2.filter
      (isStatusSendTo .fp_ctrl)).length = 10 ∧
    ((do_config_cmd (fun _ => none) initState).2.filter isSleepEv).length = 0 :=
  ⟨rfl, rfl⟩

/-- Exact trace of the settling loop: poll `i` sends one `status` request
to the processor and is followed by a single 200 ms sleep exactly when the
oracle supplies a reply for it. -/
theorem config_poll_loop_events (env : Env) (n : Nat) (s : ClientState) :
    (config_poll_loop env n s).2 =
      (List.range n).flatMap (fun i =>
        Event.send .fp_ctrl "status" ((s.msg_id + i + 1) % MESSAGE_ID_MAX) none ::
          (if (env (s.n_sent + i)).isSome then [Event.sleep 200] else [])) := by
  induction n generalizing s with
  | zero => simp [config_poll_loop]
  | succ n ih =>
    rw [List.range_succ_eq_map, List.flatMap_cons, List.flatMap_map]
    have hblocks :
        (fun i => Event.send .fp_ctrl "status"
            (((s.msg_id + 1) % MESSAGE_ID_MAX + i + 1) % MESSAGE_ID_MAX) none ::
          (if (env (s.n_sent + 1 + i)).isSome then [Event.sleep 200] else []))
        = (fun i => Event.send .fp_ctrl "status"
            ((s.msg_id + Nat.succ i + 1) % MESSAGE_ID_MAX) none ::
          (if (env (s.n_sent + Nat.succ i)).isSome then [Event.sleep 200] else [])) := by
      funext i
      have hid : ((s.msg_id + 1) % MESSAGE_ID_MAX + i + 1) % MESSAGE_ID_MAX
          = (s.msg_id + Nat.succ i + 1) % MESSAGE_ID_MAX := by
        rw [Nat.add_assoc ((s.msg_id + 1) % MESSAGE_ID_MAX) i 1, Nat.mod_add_mod]
        congr 1
        omega
      have hix : s.n_sent + 1 + i = s.n_sent + Nat.succ i := by omega
      rw [hid, hix]
    show ([Event.send .fp_ctrl "status" ((s.msg_id + 1) % MESSAGE_ID_MAX) none] ++
        (if (env s.n_sent).isSome then [Event.sleep 200] else []) ++
        (config_poll_loop env n
          { s with msg_id := (s.msg_id + 1) % MESSAGE_ID_MAX,
                   n_sent := s.n_sent + 1 }).2) = _
    rw [ih { s with msg_id := (s.msg_id + 1) % MESSAGE_ID_MAX, n_sent := s.n_sent + 1 }]
    simp only [hblocks]
    simp

theorem config_poll_loop_status_count (env : Env) (n : Nat) (s : ClientState) :
    ((config_poll_loop env n s).2.filter (isStatusSendTo .fp_ctrl)).length = n := by
  induction n generalizing s with
  | zero => simp [config_poll_loop]
  | succ n ih =>
    by_cases h : (env s.n_sent).isSome <;>
      simp [config_poll_loop, _send_status_cmd, _send_cmd, h,
        List.filter_append, isStatusSendTo, isSleepEv, ih]

/-- C1 amended: the settling step of `do_config_cmd` always issues exactly
10 status requests to the processor endpoint, but a 200 ms pause follows a
poll only when that poll received a reply; a timed-out poll is followed by
no pause. (The claim's "pause after every poll regardless of outcome"
fails — see the counterexample.) -/
theorem C1_poll_pause_amended (env : Env) (s : ClientState) :
    ((config_poll_loop env 10 s).2.filter (isStatusSendTo .fp_ctrl)).length = 10 ∧
    (config_poll_loop env 10 s).2 =
      (List.range 10).flatMap (fun i =>
        Event.send .fp_ctrl "status" ((s.msg_id + i + 1) % MESSAGE_ID_MAX) none ::
          (if (env (s.n_sent + i)).isSome then [Event.sleep 200] else [])) :=
  ⟨config_poll_loop_status_count env 10 s, config_poll_loop_events env 10 s⟩

theorem getD_obj_of_objOrAbsent (o : List (String × JValue)) (k : String)
    (h : ∀ v, lookupPath (.obj o) [k] = some v → isObjB v = true) :
    isObjB ((listGet o k).getD (.obj [])) = true := by
  cases hg : listGet o k with
  | none => rfl
  | some v =>
    simp only [Option.getD_some]
    exact h v (by rw [lookupPath_single, hg])

/-- Reading back the leaf just written through one ensured section. -/
theorem ensure_modify_set_leaf (o : List (String × JValue)) (k1 k2 : String)
    (v : JValue) (h : isObjB ((listGet o k1).getD (.obj [])) = true) :
    lookupPath (jModify (_ensure_config_section (.obj o) k1) k1
      (fun d => jSet d k2 v)) [k1, k2] = some v := by
  obtain ⟨od, hod⟩ := isObjB_eq_true _ h
  have h1 := (ensure_modify_get o k1 (fun d => jSet d k2 v)).1
  rw [lookupPath_cons, h1, hod]
  simp [jSet, lookupPath_single, listGet_listSet_self]

theorem WFbd_initState : WFbd initState := by
  refine ⟨rfl, ?_, rfl, ?_⟩ <;> intro v hv <;>
    simp [initState, lookupPath, jGetOpt, listGet] at hv

/-- C5: a failing `set_bitdepth` call is not atomic — by the time the
`rdtype_map` lookup raises, the `-bit` string is already written into
`receiver.decoder_config.bitdepth` and `processor.excalibur.bitdepth`, so
both trees are mutated even though the operation fails. -/
theorem C5_bad_bitdepth_partial_write (b : Int) (s : ClientState)
    (h : ¬(b = 1 ∨ b = 6 ∨ b = 12 ∨ b = 24)) (hwf : WFbd s) :
    lookupPath (set_bitdepth b s).1.fr_config ["decoder_config", "bitdepth"]
      = some (.str (toString b ++ "-bit")) ∧
    lookupPath (set_bitdepth b s).1.fp_config ["excalibur", "bitdepth"]
      = some (.str (toString b ++ "-bit")) ∧
    (set_bitdepth b s).2 = some (.keyError (toString b)) := by
  obtain ⟨hfr, hfrd, hfp, hfpe⟩ := hwf
  obtain ⟨ofr, hofr⟩ := isObjB_eq_true _ hfr
  obtain ⟨ofp, hofp⟩ := isObjB_eq_true _ hfp
  have hr := rdtype_map_none b h
  have hdec : isObjB ((listGet ofr "decoder_config").getD (.obj [])) = true :=
    getD_obj_of_objOrAbsent ofr "decoder_config" (fun v hv => hfrd v (by rw [hofr]; exact hv))
  have hexc : isObjB ((listGet ofp "excalibur").getD (.obj [])) = true :=
    getD_obj_of_objOrAbsent ofp "excalibur" (fun v hv => hfpe v (by rw [hofp]; exact hv))
  refine ⟨?_, ?_, ?_⟩
  · have : (set_bitdepth b s).1.fr_config
        = jModify (_ensure_config_section s.fr_config "decoder_config")
          "decoder_config" (fun d => jSet d "bitdepth" (.str (toString b ++ "-bit"))) := by
      simp [set_bitdepth, hr]
    rw [this, hofr]
    exact ensure_modify_set_leaf ofr "decoder_config" "bitdepth" _ hdec
  · have : (set_bitdepth b s).1.fp_config
        = jModify (_ensure_config_section s.fp_config "excalibur")
          "excalibur" (fun d => jSet d "bitdepth" (.str (toString b ++ "-bit"))) := by
      simp [set_bitdepth, hr]
    rw [this, hofp]
    exact ensure_modify_set_leaf ofp "excalibur" "bitdepth" _ hexc
  · simp [set_bitdepth, hr]

theorem C5_bad_bitdepth_partial_write_witness :
    (¬((7 : Int) = 1 ∨ (7 : Int) = 6 ∨ (7 : Int) = 12 ∨ (7 : Int) = 24) ∧ WFbd initState) ∧
    (lookupPath (set_bitdepth 7 initState).1.fr_config ["decoder_config", "bitdepth"]
        = some (.str (toString (7 : Int) ++ "-bit")) ∧
      lookupPath (set_bitdepth 7 initState).1.fp_config ["excalibur", "bitdepth"]
        = some (.str (toString (7 : Int) ++ "-bit")) ∧
      (set_bitdepth 7 initState).2 = some (.keyError (toString (7 : Int)))) :=
  ⟨⟨by decide, WFbd_initState⟩,
    C5_bad_bitdepth_partial_write 7 initState (by decide) WFbd_initState⟩

theorem chain_parts (o : List (String × JValue)) (k1 k2 : String)
    (h2 : ∀ v, lookupPath (.obj o) [k1] = some v → isObjB v = true)
    (h3 : ∀ v, lookupPath (.obj o) [k1, k2] = some v → isObjB v = true) :
    ∀ v, jGetOpt ((listGet o k1).getD (.obj [])) k2 = some v → isObjB v = true := by
  intro v hv
  cases hg : listGet o k1 with
  | none =>
    rw [hg] at hv
    simp [jGetOpt, listGet] at hv
  | some a =>
    rw [hg, Option.getD_some] at hv
    have ha : isObjB a = true := h2 a (by rw [lookupPath_single, hg])
    obtain ⟨oa, hoa⟩ := isObjB_eq_true _ ha
    apply h3 v
    rw [lookupPath_cons_obj o k1 [k2] a hg, hoa, lookupPath_single]
    rw [hoa] at hv
    exact hv

theorem chain_parts3 (o : List (String × JValue)) (k1 k2 k3 : String)
    (h2 : ∀ v, lookupPath (.obj o) [k1] = some v → isObjB v = true)
    (h3 : ∀ v, lookupPath (.obj o) [k1, k2] = some v → isObjB v = true)
    (h4 : ∀ v, lookupPath (.obj o) [k1, k2, k3] = some v → isObjB v = true) :
    ∀ v, jGetOpt ((jGetOpt ((listGet o k1).getD (.obj [])) k2).getD (.obj [])) k3
      = some v → isObjB v = true := by
  intro v hv
  cases hg : listGet o k1 with
  | none =>
    rw [hg] at hv
    simp [jGetOpt, listGet] at hv
  | some a =>
    rw [hg, Option.getD_some] at hv
    have ha : isObjB a = true := h2 a (by rw [lookupPath_single, hg])
    obtain ⟨oa, hoa⟩ := isObjB_eq_true _ ha
    rw [hoa] at hv
    cases hg2 : listGet oa k2 with
    | none =>
      rw [show jGetOpt (JValue.obj oa) k2 = listGet oa k2 from rfl, hg2] at hv
      simp [jGetOpt, listGet] at hv
    | some b2 =>
      rw [show jGetOpt (JValue.obj oa) k2 = listGet oa k2 from rfl, hg2,
        Option.getD_some] at hv
      have hb : isObjB b2 = true := by
        apply h3 b2
        rw [lookupPath_cons_obj o k1 [k2] a hg, hoa, lookupPath_single]
        exact hg2
      obtain ⟨ob, hob⟩ := isObjB_eq_true _ hb
      apply h4 v
      rw [lookupPath_cons_obj o k1 [k2, k3] a hg, hoa,
        lookupPath_cons_obj oa k2 [k3] b2 hg2, hob, lookupPath_single]
      rw [hob] at hv
      exact hv

/-- Reading back the leaf just written through three ensured sections. -/
theorem ensure_modify3_set_leaf (o : List (String × JValue))
    (k1 k2 k3 k4 : String) (v : JValue)
    (h1 : isObjB ((listGet o k1).getD (.obj [])) = true)
    (h2 : isObjB ((jGetOpt ((listGet o k1).getD (.obj [])) k2).getD (.obj []))
      = true)
    (h3 : isObjB ((jGetOpt ((jGetOpt ((listGet o k1).getD (.obj [])) k2).getD
      (.obj [])) k3).getD (.obj [])) = true) :
    lookupPath (jModify (_ensure_config_section (.obj o) k1) k1
      (fun a => jModify (_ensure_config_section a k2) k2
        (fun b2 => jModify (_ensure_config_section b2 k3) k3
          (fun c => jSet c k4 v)))) [k1, k2, k3, k4] = some v := by
  obtain ⟨g1, _, _⟩ := ensure_modify_get o k1
    (fun a => jModify (_ensure_config_section a k2) k2
      (fun b2 => jModify (_ensure_config_section b2 k3) k3 (fun c => jSet c k4 v)))
  rw [lookupPath_cons_some _ _ _ _ g1]
  obtain ⟨o1, ho1⟩ := isObjB_eq_true _ h1
  rw [ho1] at h2 h3 ⊢
  obtain ⟨g2, _, _⟩ := ensure_modify_get o1 k2
    (fun b2 => jModify (_ensure_config_section b2 k3) k3 (fun c => jSet c k4 v))
  rw [lookupPath_cons_some _ _ _ _ g2]
  have h2' : isObjB ((listGet o1 k2).getD (.obj [])) = true := h2
  obtain ⟨o2, ho2⟩ := isObjB_eq_true _ h2'
  rw [ho2]
  rw [show (jGetOpt (JValue.obj o1) k2).getD (.obj [])
      = (listGet o1 k2).getD (.obj []) from rfl, ho2] at h3
  obtain ⟨g3, _, _⟩ := ensure_modify_get o2 k3 (fun c => jSet c k4 v)
  rw [lookupPath_cons_some _ _ _ _ g3]
  have h3' : isObjB ((listGet o2 k3).getD (.obj [])) = true := h3
  obtain ⟨o3, ho3⟩ := isObjB_eq_true _ h3'
  rw [ho3]
  simp only [jSet]
  rw [lookupPath_single, listGet_listSet_self]

theorem WFbdFull_initState : WFbdFull initState := by
  refine ⟨WFbd_initState, ?_, ?_, ?_⟩ <;> intro v hv <;>
    simp [initState, lookupPath, jGetOpt, listGet] at hv

/-- C8: for each supported bitdepth b ∈ {1, 6, 12, 24}, from any state
whose trees are well-shaped dicts (in particular the fresh client),
`set_bitdepth` writes the `-bit` string to `receiver.decoder_config.bitdepth`
and `processor.excalibur.bitdepth` and the dataset-type code of the fixed
table {1→0, 6→0, 12→1, 24→2} to `processor.hdf.dataset.data.datatype`, and
succeeds. -/
theorem C8_bitdepth_table (b : Int) (s : ClientState)
    (h : b = 1 ∨ b = 6 ∨ b = 12 ∨ b = 24) (hwf : WFbdFull s) :
    lookupPath (set_bitdepth b s).1.fr_config ["decoder_config", "bitdepth"]
      = some (.str (toString b ++ "-bit")) ∧
    lookupPath (set_bitdepth b s).1.fp_config ["excalibur", "bitdepth"]
      = some (.str (toString b ++ "-bit")) ∧
    lookupPath (set_bitdepth b s).1.fp_config ["hdf", "dataset", "data", "datatype"]
      = some (.int (if b = 1 then 0 else if b = 6 then 0
          else if b = 12 then 1 else 2)) ∧
    (set_bitdepth b s).2 = none := by
  obtain ⟨⟨hfr, hfrd, hfp, hfpe⟩, hN1, hN2, hN3⟩ := hwf
  obtain ⟨ofr, hofr⟩ := isObjB_eq_true _ hfr
  obtain ⟨ofp, hofp⟩ := isObjB_eq_true _ hfp
  have hr : rdtype_map b = some (if b = 1 then 0 else if b = 6 then 0
      else if b = 12 then 1 else 2) := by
    rcases h with h | h | h | h <;> subst h <;> rfl
  have hdec : isObjB ((listGet ofr "decoder_config").getD (.obj [])) = true :=
    getD_obj_of_objOrAbsent ofr "decoder_config"
      (fun v hv => hfrd v (by rw [hofr]; exact hv))
  have hexc : isObjB ((listGet ofp "excalibur").getD (.obj [])) = true :=
    getD_obj_of_objOrAbsent ofp "excalibur"
      (fun v hv => hfpe v (by rw [hofp]; exact hv))
  have hchainT : ∀ (d' : JValue) (t : List String),
      relPath t ["dataset", "data", "datatype"] = false →
      lookupPath (jModify (_ensure_config_section d' "dataset") "dataset"
        (fun ds => jModify (_ensure_config_section ds "data") "data"
          (fun c => jSet c "datatype"
            (.int (if b = 1 then 0 else if b = 6 then 0
              else if b = 12 then 1 else 2))))) t = lookupPath d' t :=
    fun d' t ht => ensure_modify_off_step _ _ _ ["data", "datatype"]
      (fun d'' u hu => ensure_modify_off_step _ _ _ ["datatype"]
        (fun d3 w hw => jSet_leaf_off d3 _ _ w hw) u hu) t ht
  have hfr1 : (set_bitdepth b s).1.fr_config
      = jModify (_ensure_config_section s.fr_config "decoder_config")
        "decoder_config" (fun d => jSet d "bitdepth"
          (.str (toString b ++ "-bit"))) := by
    simp [set_bitdepth, hr]
  have hfp1 : (set_bitdepth b s).1.fp_config
      = jModify (_ensure_config_section
          (jModify (_ensure_config_section s.fp_config "excalibur") "excalibur"
            (fun d => jSet d "bitdepth" (.str (toString b ++ "-bit")))) "hdf") "hdf"
          (fun a => jModify (_ensure_config_section a "dataset") "dataset"
            (fun ds => jModify (_ensure_config_section ds "data") "data"
              (fun c => jSet c "datatype"
                (.int (if b = 1 then 0 else if b = 6 then 0
                  else if b = 12 then 1 else 2))))) := by
    simp [set_bitdepth, hr]
  have hoffq : ∀ q, relPath q ["excalibur", "bitdepth"] = false →
      lookupPath (jModify (_ensure_config_section s.fp_config "excalibur")
        "excalibur" (fun d => jSet d "bitdepth" (.str (toString b ++ "-bit")))) q
        = lookupPath s.fp_config q :=
    fun q hq => ensure_modify_off_step _ _ _ ["bitdepth"]
      (fun d' t ht => jSet_leaf_off d' _ _ t ht) q hq
  have hE : isObjB (jModify (_ensure_config_section s.fp_config "excalibur")
      "excalibur" (fun d => jSet d "bitdepth" (.str (toString b ++ "-bit")))) = true := by
    rw [isObjB_jModify, isObjB_ensure]
    exact hfp
  obtain ⟨oe, hoe⟩ := isObjB_eq_true _ hE
  have cA : ∀ v, lookupPath (.obj oe) ["hdf"] = some v → isObjB v = true := by
    intro v hv
    apply hN1 v
    rw [← hoffq ["hdf"] (by decide), hoe]
    exact hv
  have cB : ∀ v, lookupPath (.obj oe) ["hdf", "dataset"] = some v
      → isObjB v = true := by
    intro v hv
    apply hN2 v
    rw [← hoffq ["hdf", "dataset"] (by decide), hoe]
    exact hv
  have cC : ∀ v, lookupPath (.obj oe) ["hdf", "dataset", "data"] = some v
      → isObjB v = true := by
    intro v hv
    apply hN3 v
    rw [← hoffq ["hdf", "dataset", "data"] (by decide), hoe]
    exact hv
  refine ⟨?_, ?_, ?_, ?_⟩
  · rw [hfr1, hofr]
    exact ensure_modify_set_leaf ofr "decoder_config" "bitdepth" _ hdec
  · rw [hfp1]
    rw [ensure_modify_off_step _ "hdf" _ ["dataset", "data", "datatype"] hchainT
      ["excalibur", "bitdepth"] (by decide)]
    rw [hofp]
    exact ensure_modify_set_leaf ofp "excalibur" "bitdepth" _ hexc
  · rw [hfp1, hoe]
    have d1 : isObjB ((listGet oe "hdf").getD (.obj [])) = true :=
      getD_obj_of_pointwise _ (fun v hv => cA v (by rw [lookupPath_single, hv]))
    have d2 : isObjB ((jGetOpt ((listGet oe "hdf").getD (.obj [])) "dataset").getD
        (.obj [])) = true :=
      getD_obj_of_pointwise _ (chain_parts oe "hdf" "dataset" cA cB)
    have d3 : isObjB ((jGetOpt ((jGetOpt ((listGet oe "hdf").getD (.obj []))
        "dataset").getD (.obj [])) "data").getD (.obj [])) = true :=
      getD_obj_of_pointwise _ (chain_parts3 oe "hdf" "dataset" "data" cA cB cC)
    exact ensure_modify3_set_leaf oe "hdf" "dataset" "data" "datatype" _ d1 d2 d3
  · simp [set_bitdepth, hr]

theorem C8_bitdepth_table_witness :
    (((12 : Int) = 1 ∨ (12 : Int) = 6 ∨ (12 : Int) = 12 ∨ (12 : Int) = 24) ∧
      WFbdFull initState) ∧
    (lookupPath (set_bitdepth 12 initState).1.fr_config ["decoder_config", "bitdepth"]
        = some (.str (toString (12 : Int) ++ "-bit")) ∧
      lookupPath (set_bitdepth 12 initState).1.fp_config ["excalibur", "bitdepth"]
        = some (.str (toString (12 : Int) ++ "-bit")) ∧
      lookupPath (set_bitdepth 12 initState).1.fp_config
          ["hdf", "dataset", "data", "datatype"]
        = some (.int (if (12 : Int) = 1 then 0 else if (12 : Int) = 6 then 0
            else if (12 : Int) = 12 then 1 else 2)) ∧
      (set_bitdepth 12 initState).2 = none) :=
  ⟨⟨by decide, WFbdFull_initState⟩,
    C8_bitdepth_table 12 initState (by decide) WFbdFull_initState⟩

/-- One nested `hdf.file` write (the common shape of `set_file_path` and
`set_file_name`) on a well-shaped tree, read back. -/
theorem hdf_file_write_step (o : List (String × JValue)) (k3 : String) (v : JValue)
    (hh : isObjB ((listGet o "hdf").getD (.obj [])) = true)
    (hf : isObjB ((jGetOpt ((listGet o "hdf").getD (.obj [])) "file").getD (.obj []))
      = true) :
    ∃ (o' : List (String × JValue)) (hdf' file' : JValue),
      jModify (_ensure_config_section (.obj o) "hdf") "hdf"
        (fun hdf => jModify (_ensure_config_section hdf "file") "file"
          (fun file => jSet file k3 v)) = .obj o' ∧
      listGet o' "hdf" = some hdf' ∧
      isObjB hdf' = true ∧
      jGetOpt hdf' "file" = some file' ∧
      isObjB file' = true ∧
      file' = jSet ((jGetOpt ((listGet o "hdf").getD (.obj [])) "file").getD (.obj []))
        k3 v ∧
      (∀ k, k ≠ "file" → jGetOpt hdf' k
        = jGetOpt ((listGet o "hdf").getD (.obj [])) k) ∧
      (∀ k, k ≠ "hdf" → listGet o' k = listGet o k) := by
  obtain ⟨oh, hoh⟩ := isObjB_eq_true _ hh
  obtain ⟨g1, g2, g3⟩ := ensure_modify_get o "hdf"
    (fun hdf => jModify (_ensure_config_section hdf "file") "file"
      (fun file => jSet file k3 v))
  obtain ⟨o', ho'⟩ := isObjB_eq_true _ g3
  obtain ⟨i1, i2, _i3⟩ := ensure_modify_get oh "file" (fun file => jSet file k3 v)
  rw [ho'] at g1 g2
  refine ⟨o',
    jModify (_ensure_config_section ((listGet o "hdf").getD (.obj [])) "file") "file"
      (fun file => jSet file k3 v),
    jSet ((jGetOpt ((listGet o "hdf").getD (.obj [])) "file").getD (.obj [])) k3 v,
    ho', g1, ?_, ?_, ?_, rfl, ?_, ?_⟩
  · rw [isObjB_jModify, isObjB_ensure]
    exact hh
  · rw [hoh]
    exact i1
  · rw [isObjB_jSet]
    exact hf
  · intro k hk
    rw [hoh]
    exact i2 k hk
  · intro k hk
    exact g2 k hk

/-- One `hdf`-section write (the shape of `set_num_frames`), read back. -/
theorem hdf_write_step (o : List (String × JValue)) (k2 : String) (v : JValue) :
    ∃ (o' : List (String × JValue)),
      jModify (_ensure_config_section (.obj o) "hdf") "hdf"
        (fun hdf => jSet hdf k2 v) = .obj o' ∧
      listGet o' "hdf" = some (jSet ((listGet o "hdf").getD (.obj [])) k2 v) ∧
      (∀ k, k ≠ "hdf" → listGet o' k = listGet o k) := by
  obtain ⟨g1, g2, g3⟩ := ensure_modify_get o "hdf" (fun hdf => jSet hdf k2 v)
  obtain ⟨o', ho'⟩ := isObjB_eq_true _ g3
  rw [ho'] at g1 g2
  exact ⟨o', ho', g1, g2⟩

/-- The trace of `set_file_writing`: exactly one `configure` send to the
processor, whose params dict has the single key `hdf` bound to the `hdf`
node of the resulting processor tree. -/
theorem set_file_writing_events (env : Env) (e : Bool) (s : ClientState) :
    (set_file_writing env e s).2
      = [Event.send .fp_ctrl "configure" ((s.msg_id + 1) % MESSAGE_ID_MAX)
          (some (.obj [("hdf",
            (jGetOpt (set_file_writing env e s).1.fp_config "hdf").getD (.obj []))]))] :=
  rfl

/-- Contents of the `hdf` node sent (and kept) by `set_file_writing`: the
`frames`, `file.path`, `file.name` and `write` leaves all reflect the
current session state and the requested write flag. -/
theorem set_file_writing_hdf_content (env : Env) (e : Bool) (s : ClientState)
    (hwf : WFfp s) :
    jGetOpt ((jGetOpt (set_file_writing env e s).1.fp_config "hdf").getD (.obj []))
        "frames" = some (.int s.frames) ∧
    lookupPath ((jGetOpt (set_file_writing env e s).1.fp_config "hdf").getD (.obj []))
        ["file", "path"] = some (.str s.file_path) ∧
    lookupPath ((jGetOpt (set_file_writing env e s).1.fp_config "hdf").getD (.obj []))
        ["file", "name"] = some (.str s.file_name) ∧
    jGetOpt ((jGetOpt (set_file_writing env e s).1.fp_config "hdf").getD (.obj []))
        "write" = some (.bool e) := by
  obtain ⟨h1, h2, h3⟩ := hwf
  obtain ⟨o, ho⟩ := isObjB_eq_true _ h1
  rw [ho] at h2 h3
  have h2' : ∀ v, listGet o "hdf" = some v → isObjB v = true := fun v hv =>
    h2 v (by rw [lookupPath_single, hv])
  have hh : isObjB ((listGet o "hdf").getD (.obj [])) = true :=
    getD_obj_of_pointwise _ h2'
  have h3' : ∀ v, jGetOpt ((listGet o "hdf").getD (.obj [])) "file" = some v →
      isObjB v = true := by
    intro v hv
    cases hg : listGet o "hdf" with
    | none =>
      rw [hg] at hv
      simp [jGetOpt, listGet] at hv
    | some hdfv =>
      rw [hg, Option.getD_some] at hv
      apply h3 v
      rw [lookupPath_cons_obj o "hdf" ["file"] hdfv hg]
      obtain ⟨ohh, hohh⟩ := isObjB_eq_true _ (h2' hdfv hg)
      rw [hohh] at hv ⊢
      rw [lookupPath_single]
      exact hv
  have hf : isObjB ((jGetOpt ((listGet o "hdf").getD (.obj [])) "file").getD (.obj []))
      = true := getD_obj_of_pointwise _ h3'
  obtain ⟨o1, hdf1, file1, s1a, s1b, s1c, s1d, s1e, s1f, s1g, s1h⟩ :=
    hdf_file_write_step o "name" (.str s.file_name) hh hf
  have f1 : (set_file_name s.file_name s).fp_config = .obj o1 := by
    rw [show (set_file_name s.file_name s).fp_config
        = jModify (_ensure_config_section s.fp_config "hdf") "hdf"
          (fun hdf => jModify (_ensure_config_section hdf "file") "file"
            (fun file => jSet file "name" (.str s.file_name))) from rfl, ho]
    exact s1a
  have hh1 : isObjB ((listGet o1 "hdf").getD (.obj [])) = true := by
    rw [s1b, Option.getD_some]
    exact s1c
  have hf1 : isObjB ((jGetOpt ((listGet o1 "hdf").getD (.obj [])) "file").getD (.obj []))
      = true := by
    rw [s1b, Option.getD_some, s1d, Option.getD_some]
    exact s1e
  obtain ⟨o2, hdf2, file2, t2a, t2b, t2c, t2d, t2e, t2f, t2g, t2h⟩ :=
    hdf_file_write_step o1 "path" (.str s.file_path) hh1 hf1
  have f2 : (set_file_path s.file_path (set_file_name s.file_name s)).fp_config
      = .obj o2 := by
    rw [show (set_file_path s.file_path (set_file_name s.file_name s)).fp_config
        = jModify (_ensure_config_section
            (set_file_name s.file_name s).fp_config "hdf") "hdf"
          (fun hdf => jModify (_ensure_config_section hdf "file") "file"
            (fun file => jSet file "path" (.str s.file_path))) from rfl, f1]
    exact t2a
  have f2v : file2 = jSet file1 "path" (.str s.file_path) := by
    rw [t2f, s1b, Option.getD_some, s1d, Option.getD_some]
  obtain ⟨o3, u3a, u3b, u3c⟩ := hdf_write_step o2 "frames" (.int s.frames)
  have f3 : (set_num_frames s.frames
      (set_file_path s.file_path (set_file_name s.file_name s))).fp_config
      = .obj o3 := by
    rw [show (set_num_frames s.frames
        (set_file_path s.file_path (set_file_name s.file_name s))).fp_config
        = jModify (_ensure_config_section
            (set_file_path s.file_path (set_file_name s.file_name s)).fp_config
            "hdf") "hdf"
          (fun hdf => jSet hdf "frames" (.int s.frames)) from rfl, f2]
    exact u3a
  have h3v := u3b
  rw [t2b, Option.getD_some] at h3v
  have hF : (set_file_writing env e s).1.fp_config
      = jModify (jModify ((set_num_frames s.frames
          (set_file_path s.file_path (set_file_name s.file_name s))).fp_config)
          "hdf" (fun hdf => jSet hdf "frames" (.int s.frames)))
          "hdf" (fun hdf => jSet hdf "write" (.bool e)) := rfl
  rw [f3] at hF
  have hdfF : jGetOpt (set_file_writing env e s).1.fp_config "hdf"
      = some (jSet (jSet (jSet hdf2 "frames" (.int s.frames)) "frames" (.int s.frames))
          "write" (.bool e)) := by
    rw [hF]
    rw [show jModify (.obj o3) "hdf" (fun hdf => jSet hdf "frames" (.int s.frames))
        = .obj (listSet o3 "hdf" (jSet ((listGet o3 "hdf").getD (.obj []))
            "frames" (.int s.frames))) from rfl]
    rw [h3v, Option.getD_some]
    rw [jGetOpt_jModify_self]
    rw [listGet_listSet_self, Option.getD_some]
  obtain ⟨oh2, hoh2⟩ := isObjB_eq_true _ t2c
  obtain ⟨of1, hof1⟩ := isObjB_eq_true _ s1e
  obtain ⟨of0, hof0⟩ := isObjB_eq_true _ hf
  have hfile : jGetOpt (jSet (jSet (jSet hdf2 "frames" (.int s.frames))
        "frames" (.int s.frames)) "write" (.bool e)) "file" = some file2 := by
    rw [jGetOpt_jSet_ne _ _ _ _ (by decide : ("file" : String) ≠ "write"),
      jGetOpt_jSet_ne _ _ _ _ (by decide : ("file" : String) ≠ "frames"),
      jGetOpt_jSet_ne _ _ _ _ (by decide : ("file" : String) ≠ "frames")]
    exact t2d
  refine ⟨?_, ?_, ?_, ?_⟩
  · rw [hdfF, Option.getD_some,
      jGetOpt_jSet_ne _ _ _ _ (by decide : ("frames" : String) ≠ "write"), hoh2]
    simp only [jSet]
    exact jGetOpt_jSet_self _ _ _
  · rw [hdfF, Option.getD_some, lookupPath_cons, hfile]
    rw [f2v, hof1]
    simp only [jSet]
    rw [lookupPath_single, listGet_listSet_self]
  · rw [hdfF, Option.getD_some, lookupPath_cons, hfile]
    rw [f2v, s1f, hof0]
    simp only [jSet]
    rw [lookupPath_single,
      listGet_listSet_ne _ _ _ _ (by decide : ("name" : String) ≠ "path"),
      listGet_listSet_self]
  · rw [hdfF, Option.getD_some, hoh2]
    simp only [jSet]
    exact jGetOpt_jSet_self _ _ _

theorem WFfp_parts (o : List (String × JValue))
    (h2 : ∀ v, lookupPath (.obj o) ["hdf"] = some v → isObjB v = true)
    (h3 : ∀ v, lookupPath (.obj o) ["hdf", "file"] = some v → isObjB v = true) :
    isObjB ((listGet o "hdf").getD (.obj [])) = true ∧
    (∀ v, jGetOpt ((listGet o "hdf").getD (.obj [])) "file" = some v →
      isObjB v = true) := by
  have h2' : ∀ v, listGet o "hdf" = some v → isObjB v = true := fun v hv =>
    h2 v (by rw [lookupPath_single, hv])
  refine ⟨getD_obj_of_pointwise _ h2', ?_⟩
  intro v hv
  cases hg : listGet o "hdf" with
  | none =>
    rw [hg] at hv
    simp [jGetOpt, listGet] at hv
  | some hdfv =>
    rw [hg, Option.getD_some] at hv
    apply h3 v
    rw [lookupPath_cons_obj o "hdf" ["file"] hdfv hg]
    obtain ⟨ohh, hohh⟩ := isObjB_eq_true _ (h2' hdfv hg)
    rw [hohh] at hv ⊢
    rw [lookupPath_single]
    exact hv

theorem WFfp_of_step (s' : ClientState) (o' : List (String × JValue))
    (hdf' file' : JValue) (hfp : s'.fp_config = .obj o')
    (hb : listGet o' "hdf" = some hdf') (hc : isObjB hdf' = true)
    (hd : jGetOpt hdf' "file" = some file') (he : isObjB file' = true) :
    WFfp s' := by
  refine ⟨by rw [hfp]; rfl, ?_, ?_⟩
  · intro v hv
    rw [hfp, lookupPath_single, hb] at hv
    injection hv with h
    exact h ▸ hc
  · intro v hv
    rw [hfp, lookupPath_cons_obj o' "hdf" ["file"] hdf' hb] at hv
    obtain ⟨ohd, hohd⟩ := isObjB_eq_true _ hc
    rw [hohd, lookupPath_single] at hv
    rw [hohd] at hd
    have h2 : some file' = some v := hd.symm.trans hv
    injection h2 with h2
    exact h2 ▸ he

theorem WFfp_set_file_name (f : String) (s : ClientState) (hwf : WFfp s) :
    WFfp (set_file_name f s) := by
  obtain ⟨h1, h2, h3⟩ := hwf
  obtain ⟨o, ho⟩ := isObjB_eq_true _ h1
  rw [ho] at h2 h3
  obtain ⟨hh, hfp3⟩ := WFfp_parts o h2 h3
  obtain ⟨o1, hdf1, file1, s1a, s1b, s1c, s1d, s1e, _s1f, _s1g, _s1h⟩ :=
    hdf_file_write_step o "name" (.str f) hh (getD_obj_of_pointwise _ hfp3)
  refine WFfp_of_step _ o1 hdf1 file1 ?_ s1b s1c s1d s1e
  rw [show (set_file_name f s).fp_config
      = jModify (_ensure_config_section s.fp_config "hdf") "hdf"
        (fun hdf => jModify (_ensure_config_section hdf "file") "file"
          (fun file => jSet file "name" (.str f))) from rfl, ho]
  exact s1a

theorem WFfp_set_file_path (p : String) (s : ClientState) (hwf : WFfp s) :
    WFfp (set_file_path p s) := by
  obtain ⟨h1, h2, h3⟩ := hwf
  obtain ⟨o, ho⟩ := isObjB_eq_true _ h1
  rw [ho] at h2 h3
  obtain ⟨hh, hfp3⟩ := WFfp_parts o h2 h3
  obtain ⟨o1, hdf1, file1, s1a, s1b, s1c, s1d, s1e, _s1f, _s1g, _s1h⟩ :=
    hdf_file_write_step o "path" (.str p) hh (getD_obj_of_pointwise _ hfp3)
  refine WFfp_of_step _ o1 hdf1 file1 ?_ s1b s1c s1d s1e
  rw [show (set_file_path p s).fp_config
      = jModify (_ensure_config_section s.fp_config "hdf") "hdf"
        (fun hdf => jModify (_ensure_config_section hdf "file") "file"
          (fun file => jSet file "path" (.str p))) from rfl, ho]
  exact s1a

theorem WFfp_set_num_frames (n : Int) (s : ClientState) (hwf : WFfp s) :
    WFfp (set_num_frames n s) := by
  obtain ⟨h1, h2, h3⟩ := hwf
  obtain ⟨o, ho⟩ := isObjB_eq_true _ h1
  rw [ho] at h2 h3
  obtain ⟨hh, hfp3⟩ := WFfp_parts o h2 h3
  obtain ⟨oh, hoh⟩ := isObjB_eq_true _ hh
  obtain ⟨o', ha, hb, _hc⟩ := hdf_write_step o "frames" (.int n)
  have hfp : (set_num_frames n s).fp_config = .obj o' := by
    rw [show (set_num_frames n s).fp_config
        = jModify (_ensure_config_section s.fp_config "hdf") "hdf"
          (fun hdf => jSet hdf "frames" (.int n)) from rfl, ho]
    exact ha
  refine ⟨by rw [hfp]; rfl, ?_, ?_⟩
  · intro v hv
    rw [hfp, lookupPath_single, hb] at hv
    injection hv with h
    rw [← h, isObjB_jSet]
    exact hh
  · intro v hv
    rw [hfp, lookupPath_cons_obj o' "hdf" ["file"] _ hb] at hv
    rw [hoh] at hv
    simp only [jSet] at hv
    rw [lookupPath_single,
      listGet_listSet_ne _ _ _ _ (by decide : ("file" : String) ≠ "frames")] at hv
    apply hfp3 v
    rw [hoh]
    exact hv

theorem WFfp_initState : WFfp initState := by
  refine ⟨rfl, ?_, ?_⟩ <;> intro v hv <;>
    simp [initState, lookupPath, jGetOpt, listGet] at hv

theorem WFfp_applyPreOps_of (ops : List PreOp) (s : ClientState) (hwf : WFfp s) :
    WFfp (applyPreOps ops s) := by
  induction ops generalizing s with
  | nil => exact hwf
  | cons op ops ih =>
    cases op with
    | numFrames n => exact ih _ (WFfp_set_num_frames n s hwf)
    | filePath p => exact ih _ (WFfp_set_file_path p s hwf)
    | fileName f => exact ih _ (WFfp_set_file_name f s hwf)

theorem WFfp_applyPreOps (ops : List PreOp) : WFfp (applyPreOps ops initState) :=
  WFfp_applyPreOps_of ops initState WFfp_initState

/-- C3: after any prior sequence of `set_num_frames` / `set_file_path` /
`set_file_name` calls, in any order, `set_file_writing(true)` sends the
processor exactly one `configure` command whose params is the single key
`hdf`, and that subtree holds `frames`, `file.path`, `file.name` equal to
the latest session values and `write = true`. -/
theorem C3_file_writing_payload (ops : List PreOp) (env : Env) :
    ∃ hdf : JValue,
      (set_file_writing env true (applyPreOps ops initState)).2 =
        [Event.send .fp_ctrl "configure"
          (((applyPreOps ops initState).msg_id + 1) % MESSAGE_ID_MAX)
          (some (.obj [("hdf", hdf)]))] ∧
      jGetOpt hdf "frames" = some (.int (applyPreOps ops initState).frames) ∧
      lookupPath hdf ["file", "path"]
        = some (.str (applyPreOps ops initState).file_path) ∧
      lookupPath hdf ["file", "name"]
        = some (.str (applyPreOps ops initState).file_name) ∧
      jGetOpt hdf "write" = some (.bool true) := by
  obtain ⟨c1, c2, c3, c4⟩ := set_file_writing_hdf_content env true
    (applyPreOps ops initState) (WFfp_applyPreOps ops)
  exact ⟨_, set_file_writing_events env true _, c1, c2, c3, c4⟩

theorem listSet_append_of_absent (o : List (String × JValue)) (k : String)
    (v : JValue) (h : listGet o k = none) : listSet o k v = o ++ [(k, v)] := by
  induction o with
  | nil => rfl
  | cons hd rest ih =>
    obtain ⟨k', v'⟩ := hd
    by_cases hk : k' = k
    · subst hk
      simp [listGet] at h
    · simp only [listGet, if_neg hk] at h
      simp [listSet, hk, ih h]

theorem listGet_append_right (o o2 : List (String × JValue)) (k : String)
    (h : listGet o k = none) : listGet (o ++ o2) k = listGet o2 k := by
  induction o with
  | nil => rfl
  | cons hd rest ih =>
    obtain ⟨k', v'⟩ := hd
    by_cases hk : k' = k
    · subst hk
      simp [listGet] at h
    · simp only [listGet, if_neg hk] at h
      simp [listGet, hk, ih h]

theorem ensure_insert_of_absent (o : List (String × JValue)) (k : String)
    (h : listGet o k = none) :
    _ensure_config_section (.obj o) k = .obj (o ++ [(k, .obj [])]) := by
  have hc : jContains (.obj o) k = false := by simp [jContains, h]
  simp [_ensure_config_section, hc, jSet, listSet_append_of_absent o k _ h]

theorem ensure_noop_of_present (d : JValue) (k : String)
    (h : jContains d k = true) : _ensure_config_section d k = d := by
  simp [_ensure_config_section, h]

theorem ensure_idem (d : JValue) (k : String) :
    _ensure_config_section (_ensure_config_section d k) k
      = _ensure_config_section d k := by
  by_cases hc : jContains d k = true
  · rw [ensure_noop_of_present d k hc, ensure_noop_of_present d k hc]
  · cases d with
    | obj o =>
      have hnone : listGet o k = none := by
        rcases hg : listGet o k with _ | v
        · rfl
        · exact absurd (by simp [jContains, hg]) hc
      rw [ensure_insert_of_absent o k hnone]
      apply ensure_noop_of_present
      have : listGet (o ++ [(k, JValue.obj [])]) k = some (.obj []) := by
        rw [listGet_append_right o _ k hnone]
        simp [listGet]
      simp [jContains, this]
    | str a => simp [_ensure_config_section, jContains, jSet]
    | int a => simp [_ensure_config_section, jContains, jSet]
    | bool a => simp [_ensure_config_section, jContains, jSet]
    | arr a => simp [_ensure_config_section, jContains, jSet]

theorem set_file_writing_fp_off (env : Env) (e : Bool) (s : ClientState)
    (q : List String)
    (h1 : relPath q ["hdf", "frames"] = false)
    (h2 : relPath q ["hdf", "file", "path"] = false)
    (h3 : relPath q ["hdf", "file", "name"] = false)
    (h4 : relPath q ["hdf", "write"] = false) :
    lookupPath (set_file_writing env e s).1.fp_config q
      = lookupPath s.fp_config q := by
  have hstep : (set_file_writing env e s).1.fp_config
      = jModify (jModify ((set_num_frames s.frames
          (set_file_path s.file_path (set_file_name s.file_name s))).fp_config)
          "hdf" (fun hdf => jSet hdf "frames" (.int s.frames)))
          "hdf" (fun hdf => jSet hdf "write" (.bool e)) := rfl
  rw [hstep]
  rw [modify_off_step _ _ _ ["write"] (fun d' t ht => jSet_leaf_off d' _ _ t ht) q h4]
  rw [modify_off_step _ _ _ ["frames"] (fun d' t ht => jSet_leaf_off d' _ _ t ht) q h1]
  rw [set_num_frames_fp_off _ _ _ h1, set_file_path_fp_off _ _ _ h2,
    set_file_name_fp_off _ _ _ h3]

theorem setterOp_fp_off (op : SetterOp) (s : ClientState) (q : List String)
    (h : ∀ P ∈ writtenPathsFp op, relPath q P = false) :
    lookupPath (applySetterOp op s).fp_config q = lookupPath s.fp_config q := by
  cases op with
  | numFrames n =>
    exact set_num_frames_fp_off n s q
      (h ["hdf", "frames"] (by simp [writtenPathsFp]))
  | filePath p =>
    exact set_file_path_fp_off p s q
      (h ["hdf", "file", "path"] (by simp [writtenPathsFp]))
  | fileName f =>
    exact set_file_name_fp_off f s q
      (h ["hdf", "file", "name"] (by simp [writtenPathsFp]))
  | bitdepth b =>
    exact set_bitdepth_fp_off b s q
      (h ["excalibur", "bitdepth"] (by simp [writtenPathsFp]))
      (h ["hdf", "dataset", "data", "datatype"] (by simp [writtenPathsFp]))
  | fileWriting env e =>
    exact set_file_writing_fp_off env e s q
      (h ["hdf", "frames"] (by simp [writtenPathsFp]))
      (h ["hdf", "file", "path"] (by simp [writtenPathsFp]))
      (h ["hdf", "file", "name"] (by simp [writtenPathsFp]))
      (h ["hdf", "write"] (by simp [writtenPathsFp]))

theorem setterOp_fr_off (op : SetterOp) (s : ClientState) (q : List String)
    (h : ∀ P ∈ writtenPathsFr op, relPath q P = false) :
    lookupPath (applySetterOp op s).fr_config q = lookupPath s.fr_config q := by
  cases op with
  | numFrames n => rfl
  | filePath p => rfl
  | fileName f => rfl
  | bitdepth b =>
    exact set_bitdepth_fr_off b s q
      (h ["decoder_config", "bitdepth"] (by simp [writtenPathsFr]))
  | fileWriting env e => rfl

theorem set_file_path_sections (p : String) (s : ClientState) (hwf : WFfp s) :
    (∃ h', lookupPath (set_file_path p s).fp_config ["hdf"] = some h' ∧
      isObjB h' = true) ∧
    (∃ f', lookupPath (set_file_path p s).fp_config ["hdf", "file"] = some f' ∧
      isObjB f' = true) ∧
    lookupPath (set_file_path p s).fp_config ["hdf", "file", "path"]
      = some (.str p) := by
  obtain ⟨h1, h2, h3⟩ := hwf
  obtain ⟨o, ho⟩ := isObjB_eq_true _ h1
  rw [ho] at h2 h3
  obtain ⟨hh, hfp3⟩ := WFfp_parts o h2 h3
  have hf := getD_obj_of_pointwise _ hfp3
  obtain ⟨o1, hdf1, file1, s1a, s1b, s1c, s1d, s1e, s1f, _s1g, _s1h⟩ :=
    hdf_file_write_step o "path" (.str p) hh hf
  have hfp : (set_file_path p s).fp_config = .obj o1 := by
    rw [show (set_file_path p s).fp_config
        = jModify (_ensure_config_section s.fp_config "hdf") "hdf"
          (fun hdf => jModify (_ensure_config_section hdf "file") "file"
            (fun file => jSet file "path" (.str p))) from rfl, ho]
    exact s1a
  obtain ⟨ohd, hohd⟩ := isObjB_eq_true _ s1c
  obtain ⟨of0, hof0⟩ := isObjB_eq_true _ hf
  rw [hohd] at s1d
  refine ⟨⟨hdf1, ?_, s1c⟩, ⟨file1, ?_, s1e⟩, ?_⟩
  · rw [hfp, lookupPath_single]
    exact s1b
  · rw [hfp, lookupPath_cons_obj o1 "hdf" ["file"] hdf1 s1b, hohd, lookupPath_single]
    exact s1d
  · rw [hfp, lookupPath_cons_obj o1 "hdf" ["file", "path"] hdf1 s1b, hohd]
    rw [lookupPath_cons_obj ohd "file" ["path"] file1 s1d]
    rw [s1f, hof0]
    simp only [jSet]
    rw [lookupPath_single, listGet_listSet_self]

/-- C7: `_ensure_config_section` inserts an empty mapping exactly when the
key is absent, is a no-op (never overwrites) when the key is present, and
is idempotent; the cited nested setter `set_file_path` leaves both
intermediate sections of its written path present as dicts and the leaf
written; and no mutating operation disturbs the processor or receiver
tree at any path unrelated to the paths it writes (so sibling keys are
never removed or overwritten). -/
theorem C7_ensure_section_discipline :
    (∀ (o : List (String × JValue)) (k : String), listGet o k = none →
      _ensure_config_section (.obj o) k = .obj (o ++ [(k, .obj [])])) ∧
    (∀ (d : JValue) (k : String), jContains d k = true →
      _ensure_config_section d k = d) ∧
    (∀ (d : JValue) (k : String),
      _ensure_config_section (_ensure_config_section d k) k
        = _ensure_config_section d k) ∧
    (∀ (p : String) (s : ClientState), WFfp s →
      (∃ h', lookupPath (set_file_path p s).fp_config ["hdf"] = some h' ∧
        isObjB h' = true) ∧
      (∃ f', lookupPath (set_file_path p s).fp_config ["hdf", "file"] = some f' ∧
        isObjB f' = true) ∧
      lookupPath (set_file_path p s).fp_config ["hdf", "file", "path"]
        = some (.str p)) ∧
    (∀ (op : SetterOp) (s : ClientState) (q : List String),
      (∀ P ∈ writtenPathsFp op, relPath q P = false) →
      lookupPath (applySetterOp op s).fp_config q = lookupPath s.fp_config q) ∧
    (∀ (op : SetterOp) (s : ClientState) (q : List String),
      (∀ P ∈ writtenPathsFr op, relPath q P = false) →
      lookupPath (applySetterOp op s).fr_config q = lookupPath s.fr_config q) :=
  ⟨ensure_insert_of_absent, ensure_noop_of_present, ensure_idem,
    set_file_path_sections, setterOp_fp_off, setterOp_fr_off⟩

theorem C7_ensure_section_discipline_witness :
    (∀ P ∈ writtenPathsFp (.numFrames 5), relPath ["other"] P = false) ∧
    lookupPath (applySetterOp (.numFrames 5) initState).fp_config ["other"]
      = lookupPath initState.fp_config ["other"] :=
  ⟨by decide,
    C7_ensure_section_discipline.2.2.2.2.1 (.numFrames 5) initState ["other"]
      (by decide)⟩

theorem ensure_nonobj (d : JValue) (k : String) (h : isObjB d = false) :
    _ensure_config_section d k = d := by
  cases d <;> simp_all [_ensure_config_section, jContains, jSet, isObjB]

theorem jModify_nonobj (d : JValue) (k : String) (f : JValue → JValue)
    (h : isObjB d = false) : jModify d k f = d := by
  cases d <;> simp_all [jModify, isObjB]

theorem lookupPath_nonobj (d : JValue) (k : String) (t : List String)
    (h : isObjB d = false) : lookupPath d (k :: t) = none := by
  cases d <;> simp_all [lookupPath_cons, jGetOpt, isObjB]

theorem jSet_leaf_cases (d : JValue) (k : String) (v : JValue) :
    lookupPath (jSet d k v) [k] = none ∨ lookupPath (jSet d k v) [k] = some v := by
  cases d with
  | obj o =>
    right
    simp only [jSet]
    rw [lookupPath_single, listGet_listSet_self]
  | str a => left; rfl
  | int a => left; rfl
  | bool a => left; rfl
  | arr a => left; rfl

/-- Leaf value after a bare `hdf`-section write: absent (degenerate tree)
or the written value. -/
theorem modify_set_leaf_cases (d : JValue) (k2 : String) (v : JValue) :
    lookupPath (jModify d "hdf" (fun hdf => jSet hdf k2 v)) ["hdf", k2] = none ∨
    lookupPath (jModify d "hdf" (fun hdf => jSet hdf k2 v)) ["hdf", k2] = some v := by
  cases hd : isObjB d with
  | false =>
    rw [jModify_nonobj d _ _ hd]
    exact Or.inl (lookupPath_nonobj d _ _ hd)
  | true =>
    obtain ⟨o, ho⟩ := isObjB_eq_true d hd
    subst ho
    have hmod : jGetOpt (jModify (.obj o) "hdf" (fun hdf => jSet hdf k2 v)) "hdf"
        = some (jSet ((listGet o "hdf").getD (.obj [])) k2 v) :=
      jGetOpt_jModify_self o "hdf" _
    rw [lookupPath_cons_some _ _ _ _ hmod]
    exact jSet_leaf_cases _ k2 v

/-- Leaf value after an ensured `hdf`-section write. -/
theorem ensure_modify_set_leaf_cases (d : JValue) (k2 : String) (v : JValue) :
    lookupPath (jModify (_ensure_config_section d "hdf") "hdf"
      (fun hdf => jSet hdf k2 v)) ["hdf", k2] = none ∨
    lookupPath (jModify (_ensure_config_section d "hdf") "hdf"
      (fun hdf => jSet hdf k2 v)) ["hdf", k2] = some v := by
  cases hd : isObjB d with
  | false =>
    rw [ensure_nonobj d _ hd, jModify_nonobj d _ _ hd]
    exact Or.inl (lookupPath_nonobj d _ _ hd)
  | true =>
    obtain ⟨o, ho⟩ := isObjB_eq_true d hd
    subst ho
    obtain ⟨g1, _g2, _g3⟩ := ensure_modify_get o "hdf" (fun hdf => jSet hdf k2 v)
    rw [lookupPath_cons_some _ _ _ _ g1]
    exact jSet_leaf_cases _ k2 v

/-- Leaf value after an ensured nested `hdf.file` write. -/
theorem ensure_modify2_set_leaf_cases (d : JValue) (k3 : String) (v : JValue) :
    lookupPath (jModify (_ensure_config_section d "hdf") "hdf"
      (fun hdf => jModify (_ensure_config_section hdf "file") "file"
        (fun file => jSet file k3 v))) ["hdf", "file", k3] = none ∨
    lookupPath (jModify (_ensure_config_section d "hdf") "hdf"
      (fun hdf => jModify (_ensure_config_section hdf "file") "file"
        (fun file => jSet file k3 v))) ["hdf", "file", k3] = some v := by
  cases hd : isObjB d with
  | false =>
    rw [ensure_nonobj d _ hd, jModify_nonobj d _ _ hd]
    exact Or.inl (lookupPath_nonobj d _ _ hd)
  | true =>
    obtain ⟨o, ho⟩ := isObjB_eq_true d hd
    subst ho
    obtain ⟨g1, _g2, _g3⟩ := ensure_modify_get o "hdf"
      (fun hdf => jModify (_ensure_config_section hdf "file") "file"
        (fun file => jSet file k3 v))
    rw [lookupPath_cons_some _ _ _ _ g1]
    cases hh : isObjB ((listGet o "hdf").getD (.obj [])) with
    | false =>
      rw [ensure_nonobj _ _ hh, jModify_nonobj _ _ _ hh]
      exact Or.inl (lookupPath_nonobj _ _ _ hh)
    | true =>
      obtain ⟨oh, hoh⟩ := isObjB_eq_true _ hh
      rw [hoh]
      obtain ⟨i1, _i2, _i3⟩ := ensure_modify_get oh "file" (fun file => jSet file k3 v)
      rw [lookupPath_cons_some _ _ _ _ i1]
      exact jSet_leaf_cases _ k3 v

/-! ProjInv preservation, setter by setter. -/

theorem ProjInv_set_num_frames (n : Int) (s : ClientState) (h : ProjInv s) :
    ProjInv (set_num_frames n s) := by
  obtain ⟨_hf, hp, hn⟩ := h
  refine ⟨?_, ?_, ?_⟩
  · rw [set_num_frames_frames]
    have : (set_num_frames n s).fp_config
        = jModify (_ensure_config_section s.fp_config "hdf") "hdf"
          (fun hdf => jSet hdf "frames" (.int n)) := rfl
    rw [this]
    exact ensure_modify_set_leaf_cases s.fp_config "frames" (.int n)
  · rw [set_num_frames_file_path,
      set_num_frames_fp_off n s ["hdf", "file", "path"] (by decide)]
    exact hp
  · rw [set_num_frames_file_name,
      set_num_frames_fp_off n s ["hdf", "file", "name"] (by decide)]
    exact hn

theorem ProjInv_set_file_path (p : String) (s : ClientState) (h : ProjInv s) :
    ProjInv (set_file_path p s) := by
  obtain ⟨hf, _hp, hn⟩ := h
  refine ⟨?_, ?_, ?_⟩
  · rw [set_file_path_frames,
      set_file_path_fp_off p s ["hdf", "frames"] (by decide)]
    exact hf
  · rw [set_file_path_file_path]
    have : (set_file_path p s).fp_config
        = jModify (_ensure_config_section s.fp_config "hdf") "hdf"
          (fun hdf => jModify (_ensure_config_section hdf "file") "file"
            (fun file => jSet file "path" (.str p))) := rfl
    rw [this]
    exact ensure_modify2_set_leaf_cases s.fp_config "path" (.str p)
  · rw [set_file_path_file_name,
      set_file_path_fp_off p s ["hdf", "file", "name"] (by decide)]
    exact hn

theorem ProjInv_set_file_name (f : String) (s : ClientState) (h : ProjInv s) :
    ProjInv (set_file_name f s) := by
  obtain ⟨hf, hp, _hn⟩ := h
  refine ⟨?_, ?_, ?_⟩
  · rw [set_file_name_frames,
      set_file_name_fp_off f s ["hdf", "frames"] (by decide)]
    exact hf
  · rw [set_file_name_file_path,
      set_file_name_fp_off f s ["hdf", "file", "path"] (by decide)]
    exact hp
  · rw [set_file_name_file_name]
    have : (set_file_name f s).fp_config
        = jModify (_ensure_config_section s.fp_config "hdf") "hdf"
          (fun hdf => jModify (_ensure_config_section hdf "file") "file"
            (fun file => jSet file "name" (.str f))) := rfl
    rw [this]
    exact ensure_modify2_set_leaf_cases s.fp_config "name" (.str f)

theorem ProjInv_set_bitdepth (b : Int) (s : ClientState) (h : ProjInv s) :
    ProjInv (set_bitdepth b s).1 := by
  obtain ⟨hf, hp, hn⟩ := h
  refine ⟨?_, ?_, ?_⟩
  · rw [set_bitdepth_frames,
      set_bitdepth_fp_off b s ["hdf", "frames"] (by decide) (by decide)]
    exact hf
  · rw [set_bitdepth_file_path,
      set_bitdepth_fp_off b s ["hdf", "file", "path"] (by decide) (by decide)]
    exact hp
  · rw [set_bitdepth_file_name,
      set_bitdepth_fp_off b s ["hdf", "file", "name"] (by decide) (by decide)]
    exact hn

@[simp] theorem set_file_writing_frames (env : Env) (e : Bool) (s : ClientState) :
    (set_file_writing env e s).1.frames = s.frames := rfl

@[simp] theorem set_file_writing_file_path (env : Env) (e : Bool) (s : ClientState) :
    (set_file_writing env e s).1.file_path = s.file_path := rfl

@[simp] theorem set_file_writing_file_name (env : Env) (e : Bool) (s : ClientState) :
    (set_file_writing env e s).1.file_name = s.file_name := rfl

theorem ProjInv_set_file_writing (env : Env) (e : Bool) (s : ClientState)
    (h : ProjInv s) : ProjInv (set_file_writing env e s).1 := by
  have h3 : ProjInv (set_num_frames s.frames
      (set_file_path s.file_path (set_file_name s.file_name s))) :=
    ProjInv_set_num_frames _ _ (ProjInv_set_file_path _ _ (ProjInv_set_file_name _ _ h))
  obtain ⟨_g1, g2, g3⟩ := h3
  have hstep : (set_file_writing env e s).1.fp_config
      = jModify (jModify ((set_num_frames s.frames
          (set_file_path s.file_path (set_file_name s.file_name s))).fp_config)
          "hdf" (fun hdf => jSet hdf "frames" (.int s.frames)))
          "hdf" (fun hdf => jSet hdf "write" (.bool e)) := rfl
  refine ⟨?_, ?_, ?_⟩
  · rw [set_file_writing_frames, hstep]
    rw [modify_off_step _ _ _ ["write"] (fun d' t ht => jSet_leaf_off d' _ _ t ht)
      ["hdf", "frames"] (by decide)]
    exact modify_set_leaf_cases _ "frames" (.int s.frames)
  · rw [set_file_writing_file_path, hstep]
    rw [modify_off_step _ _ _ ["write"] (fun d' t ht => jSet_leaf_off d' _ _ t ht)
      ["hdf", "file", "path"] (by decide)]
    rw [modify_off_step _ _ _ ["frames"] (fun d' t ht => jSet_leaf_off d' _ _ t ht)
      ["hdf", "file", "path"] (by decide)]
    rw [set_num_frames_file_path, set_file_path_file_path] at g2
    exact g2
  · rw [set_file_writing_file_name, hstep]
    rw [modify_off_step _ _ _ ["write"] (fun d' t ht => jSet_leaf_off d' _ _ t ht)
      ["hdf", "file", "name"] (by decide)]
    rw [modify_off_step _ _ _ ["frames"] (fun d' t ht => jSet_leaf_off d' _ _ t ht)
      ["hdf", "file", "name"] (by decide)]
    rw [set_num_frames_file_name, set_file_path_file_name,
      set_file_name_file_name] at g3
    exact g3

/-! The composite command operations never mutate the configuration trees
or the session scalars. -/

theorem config_poll_loop_fp_config (env : Env) (n : Nat) (s : ClientState) :
    (config_poll_loop env n s).1.fp_config = s.fp_config := by
  induction n generalizing s with
  | zero => rfl
  | succ n ih => exact ih _

theorem config_poll_loop_frames (env : Env) (n : Nat) (s : ClientState) :
    (config_poll_loop env n s).1.frames = s.frames := by
  induction n generalizing s with
  | zero => rfl
  | succ n ih => exact ih _

theorem config_poll_loop_file_path (env : Env) (n : Nat) (s : ClientState) :
    (config_poll_loop env n s).1.file_path = s.file_path := by
  induction n generalizing s with
  | zero => rfl
  | succ n ih => exact ih _

theorem config_poll_loop_file_name (env : Env) (n : Nat) (s : ClientState) :
    (config_poll_loop env n s).1.file_name = s.file_name := by
  induction n generalizing s with
  | zero => rfl
  | succ n ih => exact ih _

theorem plugin_config_sends_fp_config (env : Env) (ps : List JValue)
    (s : ClientState) : (plugin_config_sends env ps s).1.fp_config = s.fp_config := by
  induction ps generalizing s with
  | nil => rfl
  | cons p ps ih => exact ih _

theorem plugin_config_sends_frames (env : Env) (ps : List JValue)
    (s : ClientState) : (plugin_config_sends env ps s).1.frames = s.frames := by
  induction ps generalizing s with
  | nil => rfl
  | cons p ps ih => exact ih _

theorem plugin_config_sends_file_path (env : Env) (ps : List JValue)
    (s : ClientState) : (plugin_config_sends env ps s).1.file_path = s.file_path := by
  induction ps generalizing s with
  | nil => rfl
  | cons p ps ih => exact ih _

theorem plugin_config_sends_file_name (env : Env) (ps : List JValue)
    (s : ClientState) : (plugin_config_sends env ps s).1.file_name = s.file_name := by
  induction ps generalizing s with
  | nil => rfl
  | cons p ps ih => exact ih _

@[simp] theorem next_msg_id_fp_config (s : ClientState) :
    (_next_msg_id s).1.fp_config = s.fp_config := rfl

@[simp] theorem next_msg_id_fr_config (s : ClientState) :
    (_next_msg_id s).1.fr_config = s.fr_config := rfl

@[simp] theorem next_msg_id_fp_plugins (s : ClientState) :
    (_next_msg_id s).1.fp_plugins = s.fp_plugins := rfl

@[simp] theorem next_msg_id_frames (s : ClientState) :
    (_next_msg_id s).1.frames = s.frames := rfl

@[simp] theorem next_msg_id_file_path (s : ClientState) :
    (_next_msg_id s).1.file_path = s.file_path := rfl

@[simp] theorem next_msg_id_file_name (s : ClientState) :
    (_next_msg_id s).1.file_name = s.file_name := rfl

@[simp] theorem next_msg_id_log (s : ClientState) :
    (_next_msg_id s).1.log = s.log := rfl

@[simp] theorem next_msg_id_n_sent (s : ClientState) :
    (_next_msg_id s).1.n_sent = s.n_sent := rfl

theorem do_config_cmd_preserves (env : Env) (s : ClientState) :
    (do_config_cmd env s).1.fp_config = s.fp_config ∧
    (do_config_cmd env s).1.frames = s.frames ∧
    (do_config_cmd env s).1.file_path = s.file_path ∧
    (do_config_cmd env s).1.file_name = s.file_name := by
  simp only [do_config_cmd, _send_config_cmd, _send_cmd]
  split <;>
    simp [config_poll_loop_fp_config, plugin_config_sends_fp_config,
      config_poll_loop_frames, plugin_config_sends_frames,
      config_poll_loop_file_path, plugin_config_sends_file_path,
      config_poll_loop_file_name, plugin_config_sends_file_name]

theorem do_status_cmd_preserves (env : Env) (s : ClientState) :
    (do_status_cmd env s).1.fp_config = s.fp_config ∧
    (do_status_cmd env s).1.frames = s.frames ∧
    (do_status_cmd env s).1.file_path = s.file_path ∧
    (do_status_cmd env s).1.file_name = s.file_name :=
  ⟨rfl, rfl, rfl, rfl⟩

theorem do_cmd_preserves (env : Env) (cmd : String) (s : ClientState) :
    (_do_cmd env cmd s).1.fp_config = s.fp_config ∧
    (_do_cmd env cmd s).1.frames = s.frames ∧
    (_do_cmd env cmd s).1.file_path = s.file_path ∧
    (_do_cmd env cmd s).1.file_name = s.file_name :=
  ⟨rfl, rfl, rfl, rfl⟩

theorem do_shutdown_cmd_preserves (env : Env) (s : ClientState) :
    (do_shutdown_cmd env s).1.fp_config = s.fp_config ∧
    (do_shutdown_cmd env s).1.frames = s.frames ∧
    (do_shutdown_cmd env s).1.file_path = s.file_path ∧
    (do_shutdown_cmd env s).1.file_name = s.file_name :=
  ⟨rfl, rfl, rfl, rfl⟩

theorem ProjInv_of_fields (s s' : ClientState)
    (hfp : s'.fp_config = s.fp_config) (hfr : s'.frames = s.frames)
    (hp : s'.file_path = s.file_path) (hn : s'.file_name = s.file_name)
    (h : ProjInv s) : ProjInv s' := by
  obtain ⟨h1, h2, h3⟩ := h
  exact ⟨by rw [hfp, hfr]; exact h1, by rw [hfp, hp]; exact h2,
    by rw [hfp, hn]; exact h3⟩

theorem ProjInv_initState : ProjInv initState :=
  ⟨Or.inl rfl, Or.inl rfl, Or.inl rfl⟩

/-- C2 counterexample: loading a defaults document that sets
`processor.hdf.frames` to 42 installs that leaf without touching the
session state (frames stays 1), so after the load-defaults operation the
ConfigTree leaf exists and differs from the SessionState field — the
claimed invariant fails for load-defaults. -/
theorem C2_projection_counterexample :
    ¬ ProjInv (load_config (.ok (.obj [("processor_default_config",
        .obj [("hdf", .obj [("frames", .int 42)])])])) initState) := by
  intro h
  obtain ⟨h1, _, _⟩ := h
  have hval : lookupPath (load_config (.ok (.obj [("processor_default_config",
      .obj [("hdf", .obj [("frames", .int 42)])])])) initState).fp_config
      ["hdf", "frames"] = some (.int 42) := rfl
  have hfr : (load_config (.ok (.obj [("processor_default_config",
      .obj [("hdf", .obj [("frames", .int 42)])])])) initState).frames = 1 := rfl
  rw [hval, hfr] at h1
  rcases h1 with h1 | h1 <;> simp at h1

/-- C2 amended: the projection invariant — whenever the leaves
`processor.hdf.frames`, `processor.hdf.file.path`, `processor.hdf.file.name`
exist they equal the corresponding SessionState fields — is preserved by
every setter and by the composite commands, but not by load-defaults,
which installs tree leaves without re-deriving them from SessionState
(see the counterexample). -/
theorem C2_projection_amended :
    (∀ (op : SetterOp) (s : ClientState), ProjInv s →
      ProjInv (applySetterOp op s)) ∧
    (∀ (env : Env) (s : ClientState), ProjInv s →
      ProjInv (do_config_cmd env s).1) ∧
    (∀ (env : Env) (s : ClientState), ProjInv s →
      ProjInv (do_shutdown_cmd env s).1) ∧
    (∀ (env : Env) (s : ClientState), ProjInv s →
      ProjInv (do_status_cmd env s).1) ∧
    (∀ (env : Env) (s : ClientState), ProjInv s →
      ProjInv (do_request_config_cmd env s).1) ∧
    (∀ (env : Env) (s : ClientState), ProjInv s →
      ProjInv (do_request_version_cmd env s).1) ∧
    (∀ (env : Env) (s : ClientState), ProjInv s →
      ProjInv (do_reset_stats_cmd env s).1) := by
  refine ⟨?_, ?_, ?_, ?_, ?_, ?_, ?_⟩
  · intro op s h
    cases op with
    | numFrames n => exact ProjInv_set_num_frames n s h
    | filePath p => exact ProjInv_set_file_path p s h
    | fileName f => exact ProjInv_set_file_name f s h
    | bitdepth b => exact ProjInv_set_bitdepth b s h
    | fileWriting env e => exact ProjInv_set_file_writing env e s h
  · intro env s h
    obtain ⟨a, b, c, d⟩ := do_config_cmd_preserves env s
    exact ProjInv_of_fields s _ a b c d h
  · intro env s h
    obtain ⟨a, b, c, d⟩ := do_shutdown_cmd_preserves env s
    exact ProjInv_of_fields s _ a b c d h
  · intro env s h
    obtain ⟨a, b, c, d⟩ := do_status_cmd_preserves env s
    exact ProjInv_of_fields s _ a b c d h
  · intro env s h
    obtain ⟨a, b, c, d⟩ := do_cmd_preserves env "request_configuration" s
    exact ProjInv_of_fields s _ a b c d h
  · intro env s h
    obtain ⟨a, b, c, d⟩ := do_cmd_preserves env "request_version" s
    exact ProjInv_of_fields s _ a b c d h
  · intro env s h
    obtain ⟨a, b, c, d⟩ := do_cmd_preserves env "reset_statistics" s
    exact ProjInv_of_fields s _ a b c d h

theorem C2_projection_amended_witness :
    ProjInv initState ∧ ProjInv (applySetterOp (.numFrames 5) initState) :=
  ⟨ProjInv_initState, C2_projection_amended.1 (.numFrames 5) initState ProjInv_initState⟩

end OdinData
